import Mathlib

/-!
HX711 driver (package `hx711`, go-rpio backend)

A shallow embedding of `hx711_rpio.go` and `globals_rpio.go`.

The driver talks to two GPIO pins through the `rpio` library.  Every call the
driver makes on a pin, and every `time.Sleep`, is recorded as an `Event` in a
chronological trace.  What the outside world answers to `Read` and
`EdgeDetected` is given by an environment `Env`, an arbitrary function of the
history so far, so a statement quantified over `Env` holds for every behaviour
of the chip and of the wiring.
-/

namespace hx711

/-! ## The platform: levels, edges, pins, events -/

/-- Logic level of a pin: `rpio.State`, with `rpio.Low` and `rpio.High`. -/
inductive State
  | Low
  | High
  deriving DecidableEq, Repr

/-- Edge selector of `rpio.Pin.Detect`. -/
inductive Edge
  | NoEdge
  | RiseEdge
  | FallEdge
  | AnyEdge
  deriving DecidableEq, Repr

/-- A pin handle `rpio.Pin`.  go-rpio declares `type Pin uint8`; the values are
carried as integers, and `toPin` produces them in `[0, 256)`. -/
abbrev Pin := Int

/-- The conversion `rpio.Pin(int(n))` of lines 38-39.  `n` is an `int64` that
`ParseInt` keeps within 32 bits, so `int(n)` is `n` on every platform; a Go
conversion of an integer to `uint8` keeps its low 8 bits. -/
def toPin (n : Int) : Pin := n % 256

/-- One interaction with the platform, in the order the driver performs them. -/
inductive Event
  /-- `p.Input()` -/
  | input (p : Pin)
  /-- `p.Output()` -/
  | output (p : Pin)
  /-- `p.Write(s)` -/
  | write (p : Pin) (s : State)
  /-- `p.Read()` returned `s` -/
  | read (p : Pin) (s : State)
  /-- `p.Detect(e)` -/
  | detect (p : Pin) (e : Edge)
  /-- `p.EdgeDetected()` returned `b` -/
  | edgeDetected (p : Pin) (b : Bool)
  /-- `time.Sleep(d)`, `d` in nanoseconds (`time.Duration`) -/
  | sleep (d : Int)
  deriving DecidableEq, Repr

/-- Chronological record of the interactions, oldest first. -/
abbrev Trace := List Event

/-- Behaviour of the outside world: what a pin reports, given everything that
happened before. -/
structure Env where
  /-- level returned by `p.Read()` -/
  read : Trace → Pin → State
  /-- answer of `p.EdgeDetected()` -/
  edgeDetected : Trace → Pin → Bool

/-- `time.Microsecond`, in nanoseconds. -/
def Microsecond : Int := 1000

/-! ## The driver state (`globals_rpio.go`) -/

/-- The struct `Hx711`.  `AdjustScale` is a `float64`; no code of these files
computes with it, so it is carried as its IEEE-754 bit pattern (zero value:
all bits clear). -/
structure Hx711 where
  clockPin : Pin
  dataPin : Pin
  numEndPulses : Int
  AdjustZero : Int
  AdjustScale : Nat
  deriving DecidableEq, Repr

/-- Everything a method of `*Hx711` can see or change: the struct behind the
receiver pointer and the trace of platform interactions. -/
structure World where
  hx711 : Hx711
  trace : Trace
  deriving DecidableEq, Repr

/-- Append one interaction to the trace. -/
def World.emit (w : World) (e : Event) : World :=
  ⟨w.hx711, w.trace ++ [e]⟩

/-- `p.Write(s)` -/
def pinWrite (p : Pin) (s : State) (w : World) : World :=
  w.emit (Event.write p s)

/-- `p.Read()` -/
def pinRead (env : Env) (p : Pin) (w : World) : State × World :=
  (env.read w.trace p, w.emit (Event.read p (env.read w.trace p)))

/-- `p.Detect(e)` -/
def pinDetect (p : Pin) (e : Edge) (w : World) : World :=
  w.emit (Event.detect p e)

/-- `p.EdgeDetected()` -/
def pinEdgeDetected (env : Env) (p : Pin) (w : World) : Bool × World :=
  (env.edgeDetected w.trace p, w.emit (Event.edgeDetected p (env.edgeDetected w.trace p)))

/-- `time.Sleep(d)` -/
def timeSleep (d : Int) (w : World) : World :=
  w.emit (Event.sleep d)

/-! ## Errors -/

/-- The `error` values of the read path: the package-level `ErrTimeout`, and a
value built by `fmt.Errorf` from a format with `%v` verbs only, which holds
nothing but its text (it has no `Unwrap`). -/
inductive GoError
  | ErrTimeout
  | errorString (s : String)
  deriving DecidableEq, Repr

/-- `err.Error()`.  `ErrTimeout` is declared outside these two files; its text
is the parameter `timeoutText`. -/
def GoError.Error (timeoutText : String) : GoError → String
  | GoError.ErrTimeout => timeoutText
  | GoError.errorString s => s

/-- `fmt.Errorf(label + ": %v", err)` for the two formats used in `ReadDataRaw`. -/
def Errorf (timeoutText : String) (label : String) (err : GoError) : GoError :=
  GoError.errorString (label ++ GoError.Error timeoutText err)

/-! ## Go library functions used by `NewHx711` -/

/-- `strings.Replace(s, old, new, 1)` for a non-empty `old`, on the characters
of the strings: the first occurrence of `old`, wherever it is, is replaced. -/
def replaceFirst (old new : List Char) : List Char → List Char
  | [] => []
  | c :: cs =>
    if old.isPrefixOf (c :: cs) then new ++ (c :: cs).drop old.length
    else c :: replaceFirst old new cs

/-- `strings.Replace(s, old, new, 1)`. -/
def Replace1 (s old new : String) : String :=
  ⟨replaceFirst old.data new.data s.data⟩

/-- The two causes in a `*strconv.NumError`. -/
inductive NumErrorKind
  | ErrSyntax
  | ErrRange
  deriving DecidableEq, Repr

/-- `strconv.NumError`. -/
structure NumError where
  Func : String
  Num : String
  Err : NumErrorKind
  deriving DecidableEq, Repr

/-- The digit loop of `strconv.ParseUint(s, 10, 32)` with accumulator `n`:
a byte outside `'0'..'9'` is a syntax error (a letter is a digit of value 10
or more, not below the base; an underscore is allowed for base 0 only);
`n >= cutoff` and `n1 < n || n1 > maxVal` are range errors, with
`cutoff = maxUint64/10 + 1` and `maxVal = 1<<32 - 1`. -/
def parseUintLoop : List Char → Nat → Except NumErrorKind Nat
  | [], n => Except.ok n
  | c :: cs, n =>
    if c.isDigit then
      if n ≥ (2 ^ 64 - 1) / 10 + 1 then Except.error NumErrorKind.ErrRange
      else if n * 10 + (c.toNat - 48) ≥ 2 ^ 64 ∨ n * 10 + (c.toNat - 48) > 2 ^ 32 - 1 then
        Except.error NumErrorKind.ErrRange
      else parseUintLoop cs (n * 10 + (c.toNat - 48))
    else Except.error NumErrorKind.ErrSyntax

/-- `strconv.ParseUint(s, 10, 32)`, on the characters of `s`. -/
def ParseUint (s : List Char) : Except NumErrorKind Nat :=
  match s with
  | [] => Except.error NumErrorKind.ErrSyntax
  | c :: cs => parseUintLoop (c :: cs) 0

/-- `strconv.ParseInt(s, 10, 32)`: an empty string is a syntax error; one
leading `+` or `-` is picked off; a syntax error of `ParseUint` is returned;
on a range error `ParseUint` gives `maxVal`, which the range checks against
`cutoff = 1<<31` then reject. -/
def ParseInt (s : String) : Except NumError Int :=
  match s.data with
  | [] => Except.error ⟨"ParseInt", s, NumErrorKind.ErrSyntax⟩
  | c :: cs =>
    let neg : Bool := c = '-'
    let rest : List Char := if c = '+' ∨ c = '-' then cs else c :: cs
    match ParseUint rest with
    | Except.error NumErrorKind.ErrSyntax => Except.error ⟨"ParseInt", s, NumErrorKind.ErrSyntax⟩
    | r =>
      let un : Nat :=
        match r with
        | Except.ok v => v
        | Except.error _ => 2 ^ 32 - 1
      if !neg ∧ un ≥ 2 ^ 31 then Except.error ⟨"ParseInt", s, NumErrorKind.ErrRange⟩
      else if neg ∧ un > 2 ^ 31 then Except.error ⟨"ParseInt", s, NumErrorKind.ErrRange⟩
      else Except.ok (if neg then -(un : Int) else (un : Int))

/-! ## `NewHx711` -/

/-- `NewHx711` (lines 25-43): the returned pair and the trace after the call. -/
def NewHx711 (clockPinName dataPinName : String) (tr : Trace) :
    (Option Hx711 × Option NumError) × Trace :=
  let clockPinName := Replace1 clockPinName "GPIO" ""
  let dataPinName := Replace1 dataPinName "GPIO" ""
  match ParseInt clockPinName with
  | Except.error err => ((none, some err), tr)
  | Except.ok clockPin =>
    match ParseInt dataPinName with
    | Except.error err => ((none, some err), tr)
    | Except.ok dataPin =>
      let hx711 : Hx711 := ⟨0, 0, 1, 0, 0⟩
      let hx711 : Hx711 := ⟨toPin clockPin, hx711.dataPin, hx711.numEndPulses,
        hx711.AdjustZero, hx711.AdjustScale⟩
      let hx711 : Hx711 := ⟨hx711.clockPin, toPin dataPin, hx711.numEndPulses,
        hx711.AdjustZero, hx711.AdjustScale⟩
      ((some hx711, none), tr ++ [Event.input hx711.dataPin, Event.output hx711.clockPin])

/-! ## `hx711_rpio.go`: clock pulses, Reset, Shutdown -/

/-- `setClockHighThenLow` (lines 46-50). -/
def setClockHighThenLow (w : World) : Option GoError × World :=
  let w := pinWrite w.hx711.clockPin State.High w
  let w := pinWrite w.hx711.clockPin State.Low w
  (none, w)

/-- `Reset` (lines 54-60). -/
def Reset (w : World) : Option GoError × World :=
  let w := pinWrite w.hx711.clockPin State.Low w
  let w := pinWrite w.hx711.clockPin State.High w
  let w := timeSleep (70 * Microsecond) w
  let w := pinWrite w.hx711.clockPin State.Low w
  (none, w)

/-- `Shutdown` (lines 64-67). -/
def Shutdown (w : World) : Option GoError × World :=
  let w := pinWrite w.hx711.clockPin State.High w
  (none, w)

/-! ## `waitForDataReady` -/

/-- `EDGE_TRY_LOOP` (line 83). -/
def EDGE_TRY_LOOP : Nat := 1500

/-- `BUSY_LOOP_DELAY` (line 86). -/
def BUSY_LOOP_DELAY : Int := 250 * Microsecond

/-- The loop of lines 88-93 with `n` iterations left: `true` when an iteration
saw `EdgeDetected()` (the `return nil` of line 90), `false` when the loop ran
out. -/
def pollEdge (env : Env) : Nat → World → Bool × World
  | 0, w => (false, w)
  | n + 1, w =>
    match pinEdgeDetected env w.hx711.dataPin w with
    | (true, w1) => (true, w1)
    | (false, w1) => pollEdge env n (timeSleep BUSY_LOOP_DELAY w1)

/-- `waitForDataReady` (lines 70-96).  The deferred `Detect(rpio.NoEdge)` of
line 75 runs at each of the three returns. -/
def waitForDataReady (env : Env) (w : World) : Option GoError × World :=
  let w := pinDetect w.hx711.dataPin Edge.FallEdge w
  let w := pinWrite w.hx711.clockPin State.Low w
  let deferred : World → World := pinDetect w.hx711.dataPin Edge.NoEdge
  match pinRead env w.hx711.dataPin w with
  | (State.Low, w) => (none, deferred w)
  | (State.High, w) =>
    match pollEdge env EDGE_TRY_LOOP w with
    | (true, w) => (none, deferred w)
    | (false, w) => (some GoError.ErrTimeout, deferred w)

/-! ## `ReadDataRaw` -/

/-- Lines 128-134: `if (data & 0x800000) > 0 { data |= ^0xffffff }`. -/
def signExtend (data : Int) : Int :=
  if Int.land data 0x800000 > 0 then Int.lor data (~~~ (0xffffff : Int)) else data

/-- The loop of lines 108-119 with `n` iterations left and accumulator `data`.
The accumulator starts at 0 and is shifted at most 24 times, so it stays below
`2 ^ 24` (`shiftBits_data_lt`) and no `int` overflow can occur. -/
def shiftBits (timeoutText : String) (env : Env) : Nat → Int → World → Option GoError × Int × World
  | 0, data, w => (none, data, w)
  | n + 1, data, w =>
    match setClockHighThenLow w with
    | (some err, w) => (some (Errorf timeoutText "setClockHighThenLow error: " err), 0, w)
    | (none, w) =>
      match pinRead env w.hx711.dataPin w with
      | (level, w) =>
        let data := data <<< (1 : Int)
        let data := if level = State.High then data + 1 else data
        shiftBits timeoutText env n data w

/-- The loop of lines 121-126 with `n` iterations left. -/
def endPulses (timeoutText : String) : Nat → World → Option GoError × World
  | 0, w => (none, w)
  | n + 1, w =>
    match setClockHighThenLow w with
    | (some err, w) => (some (Errorf timeoutText "setClockHighThenLow error: " err), w)
    | (none, w) => endPulses timeoutText n w

/-- `ReadDataRaw` (lines 100-137): the returned pair and the world after the call. -/
def ReadDataRaw (timeoutText : String) (env : Env) (w : World) : (Int × Option GoError) × World :=
  match waitForDataReady env w with
  | (some err, w) => ((0, some (Errorf timeoutText "waitForDataReady error: " err)), w)
  | (none, w) =>
    match shiftBits timeoutText env 24 0 w with
    | (some err, _, w) => ((0, some err), w)
    | (none, data, w) =>
      match endPulses timeoutText w.hx711.numEndPulses.toNat w with
      | (some err, w) => ((0, some err), w)
      | (none, w) => ((signExtend data, none), w)

/-! ## Observations on traces, used to state the properties -/

/-- The levels written to pin `p`, oldest first. -/
def clockWrites (p : Pin) (tr : Trace) : List State :=
  tr.filterMap (fun e =>
    match e with
    | Event.write q s => if q = p then some s else none
    | _ => none)

/-- How one event changes the level pin `p` is driven to. -/
def levelStep (p : Pin) (acc : Option State) (e : Event) : Option State :=
  match e with
  | Event.write q s => if q = p then some s else acc
  | _ => acc

/-- The level pin `p` is driven to: the most recent level written to it, `none`
when it was never written. -/
def lineLevel (p : Pin) (tr : Trace) : Option State :=
  tr.foldl (levelStep p) none

/-- How one event changes the edge-detection mode of pin `p`. -/
def edgeStep (p : Pin) (acc : Option Edge) (e : Event) : Option Edge :=
  match e with
  | Event.detect q m => if q = p then some m else acc
  | _ => acc

/-- The edge-detection mode of pin `p`: the most recent `Detect` on it. -/
def edgeMode (p : Pin) (tr : Trace) : Option Edge :=
  tr.foldl (edgeStep p) none

/-- Whether the event is a `Detect` call. -/
def Event.isDetect : Event → Bool
  | Event.detect _ _ => true
  | _ => false

/-- Whether the event is an `EdgeDetected` call. -/
def Event.isEdgeCheck : Event → Bool
  | Event.edgeDetected _ _ => true
  | _ => false

/-- Whether the event is a `time.Sleep`. -/
def Event.isSleep : Event → Bool
  | Event.sleep _ => true
  | _ => false

/-- The events of `k` polling attempts that saw no edge, each followed by its
delay. -/
def pollEvents (dp : Pin) : Nat → List Event
  | 0 => []
  | k + 1 => Event.edgeDetected dp false :: Event.sleep BUSY_LOOP_DELAY :: pollEvents dp k

/-- The events of shifting in the levels `b`: per level one clock pulse, then
the read that returned it. -/
def shiftEvents (cp dp : Pin) : List State → List Event
  | [] => []
  | s :: b =>
    Event.write cp State.High :: Event.write cp State.Low :: Event.read dp s :: shiftEvents cp dp b

/-- The events of `n` bare clock pulses. -/
def pulseTrain (cp : Pin) : Nat → List Event
  | 0 => []
  | n + 1 => Event.write cp State.High :: Event.write cp State.Low :: pulseTrain cp n

/-- The levels returned by the reads of pin `p`, oldest first. -/
def samples (p : Pin) (tr : Trace) : List State :=
  tr.filterMap (fun e =>
    match e with
    | Event.read q s => if q = p then some s else none
    | _ => none)

/-- `n` clock pulses as levels: `High, Low` repeated `n` times. -/
def highLow : Nat → List State
  | 0 => []
  | n + 1 => State.High :: State.Low :: highLow n

/-- `High` counts 1 and `Low` counts 0. -/
def levelBit : State → Nat
  | State.Low => 0
  | State.High => 1

/-- The value of 24 levels read most-significant first:
the sum over `i < 24` of `b i * 2 ^ (23 - i)`. -/
def msbFirstValue (b : List State) : Nat :=
  ∑ i in Finset.range 24, levelBit (b.getD i State.Low) * 2 ^ (23 - i)

/-- The 24 levels of a bit pattern, most significant first. -/
def patternLevels (v : Nat) : List State :=
  (List.range 24).map (fun i => if v.testBit (23 - i) then State.High else State.Low)

/-- The accumulator of the shift loop after the levels `b`, starting from `a`. -/
def accumulate (a : Nat) (b : List State) : Nat :=
  b.foldl (fun acc s => 2 * acc + levelBit s) a

/-! ## Concrete chips and a concrete driver, for the examples -/

/-- A driver on clock pin 5 and data pin 6 with the default end-pulse count,
before any interaction with the platform. -/
def freshWorld : World := ⟨⟨5, 6, 1, 0, 0⟩, []⟩

/-- A chip that never becomes ready: the data line stays High and no edge is
ever reported. -/
def stuckChip : Env := ⟨fun _ _ => State.High, fun _ _ => false⟩

/-- Number of High writes in a history: the clock pulses started so far. -/
def highWrites (tr : Trace) : Nat :=
  (tr.filter (fun e =>
    match e with
    | Event.write _ State.High => true
    | _ => false)).length

/-- A simulated chip holding the 24-bit `pattern`: ready (data Low) before the
first clock pulse, and after the `k`-th pulse presenting bit `24 - k` of the
pattern, most significant bit first. -/
def simChip (pattern : Nat) : Env where
  read := fun tr _ =>
    if highWrites tr = 0 then State.Low
    else if pattern.testBit (24 - highWrites tr) then State.High else State.Low
  edgeDetected := fun _ _ => false

/-! ## The wording of the specification about pin identifiers -/

/-- The identifier with its optional leading label "GPIO" taken off: the label
is removed when the identifier starts with it, and only there. -/
def withoutLeadingLabel (s : String) : String :=
  if "GPIO".data.isPrefixOf s.data then ⟨s.data.drop 4⟩ else s

/-- A well-formed decimal number: an optional sign followed by one or more
decimal digits. -/
def wellFormedDecimal (s : String) : Bool :=
  match s.data with
  | [] => false
  | c :: cs =>
    if c = '+' ∨ c = '-' then (!cs.isEmpty && cs.all Char.isDigit)
    else (c :: cs).all Char.isDigit

/-- The number written by the decimal digits `l` placed after the digits of
`n` (48 is the code of the character 0). -/
def appendDigits (n : Nat) (l : List Char) : Nat :=
  l.foldl (fun a c => a * 10 + (c.toNat - 48)) n

/-- The integer a well-formed decimal number denotes. -/
def decimalValue (s : String) : Int :=
  match s.data with
  | [] => 0
  | c :: cs =>
    if c = '-' then -(appendDigits 0 cs : Int)
    else if c = '+' then (appendDigits 0 cs : Int)
    else (appendDigits 0 (c :: cs) : Int)

/-- What a pin identifier must be for construction to go on: a well-formed
decimal number whose value fits a signed 32-bit integer. -/
def acceptedNumber (s : String) : Prop :=
  wellFormedDecimal s = true ∧ -(2 : Int) ^ 31 ≤ decimalValue s ∧ decimalValue s < 2 ^ 31

/-! ## Sign extension (lines 128-134) -/

theorem land_natCast (m n : Nat) : Int.land (m : Int) (n : Int) = ((m &&& n : Nat) : Int) := rfl

theorem lor_natCast_not (m n : Nat) :
    Int.lor (m : Int) (~~~ (n : Int)) = Int.negSucc (Nat.ldiff n m) := rfl

theorem testBit23_iff (v : Nat) (hv : v < 2 ^ 24) : v.testBit 23 = true ↔ 2 ^ 23 ≤ v := by
  rw [Nat.testBit_to_div_mod]
  simp only [decide_eq_true_eq]
  omega

theorem and_bit23 (v : Nat) : v &&& 0x800000 = if v.testBit 23 then 0x800000 else 0 := by
  apply Nat.eq_of_testBit_eq
  intro i
  have h : (0x800000 : Nat) = 2 ^ 23 := by norm_num
  rw [Nat.testBit_and, h, Nat.testBit_two_pow]
  by_cases hb : v.testBit 23 = true
  · simp only [hb, if_true, Nat.testBit_two_pow]
    by_cases hi : 23 = i
    · subst hi; simp [hb]
    · simp [hi]
  · simp only [hb, Nat.zero_testBit]
    by_cases hi : 23 = i
    · subst hi; simp [hb]
    · simp [hi]

theorem ldiff_mask (v : Nat) (hv : v < 2 ^ 24) : Nat.ldiff 0xffffff v = 0xffffff - v := by
  apply Nat.eq_of_testBit_eq
  intro i
  have h1 : (0xffffff : Nat) = 2 ^ 24 - 1 := by norm_num
  have h2 : 0xffffff - v = 2 ^ 24 - (v + 1) := by omega
  rw [Nat.testBit_ldiff, h2, Nat.testBit_two_pow_sub_succ hv, h1, Nat.testBit_two_pow_sub_one]

theorem signExtend_natCast (v : Nat) (hv : v < 2 ^ 24) :
    signExtend (v : Int) = if v.testBit 23 then (v : Int) - 0x1000000 else (v : Int) := by
  unfold signExtend
  have e1 : (0x800000 : Int) = ((0x800000 : Nat) : Int) := rfl
  have e2 : (0xffffff : Int) = ((0xffffff : Nat) : Int) := rfl
  rw [e1, e2, land_natCast, lor_natCast_not, and_bit23, ldiff_mask v hv]
  by_cases hb : v.testBit 23 = true
  · simp only [hb, if_true]
    rw [if_pos (by norm_num)]
    rw [Int.negSucc_eq]
    omega
  · simp only [hb]
    simp

/-- C1: for every 24-bit value `v`, the sign-extension step of `ReadDataRaw`
gives `v - 0x1000000` when bit 23 of `v` is set and `v` when it is clear; the
result lies in `[-2^23, 2^23)`, is congruent to `v` modulo `2^24`, and is the
only integer with these two properties. -/
theorem signExtend_twos_complement (v : Nat) (hv : v < 2 ^ 24) :
    (v.testBit 23 = true → signExtend (v : Int) = (v : Int) - 0x1000000) ∧
    (v.testBit 23 = false → signExtend (v : Int) = (v : Int)) ∧
    (-(2 : Int) ^ 23 ≤ signExtend (v : Int) ∧ signExtend (v : Int) < 2 ^ 23 ∧
      signExtend (v : Int) % 2 ^ 24 = (v : Int)) ∧
    (∀ r : Int, -(2 : Int) ^ 23 ≤ r → r < 2 ^ 23 → r % 2 ^ 24 = (v : Int) →
      r = signExtend (v : Int)) := by
  have hse := signExtend_natCast v hv
  have hi := testBit23_iff v hv
  by_cases hb : v.testBit 23 = true
  · have hge := hi.mp hb
    rw [if_pos hb] at hse
    refine ⟨fun _ => hse, fun h => ?_, ?_, ?_⟩
    · rw [hb] at h; cases h
    · rw [hse]; omega
    · intro r h1 h2 h3; rw [hse]; omega
  · have hlt : ¬ 2 ^ 23 ≤ v := fun h => hb (hi.mpr h)
    rw [if_neg hb] at hse
    refine ⟨fun h => absurd h hb, fun _ => hse, ?_, ?_⟩
    · rw [hse]; omega
    · intro r h1 h2 h3; rw [hse]; omega

/-- The value `0x800000` (only bit 23 set) is sent to `-8388608`. -/
theorem signExtend_twos_complement_witness :
    (8388608 < 2 ^ 24) ∧
    ((Nat.testBit 8388608 23 = true → signExtend ((8388608 : Nat) : Int) = ((8388608 : Nat) : Int) - 0x1000000) ∧
    (Nat.testBit 8388608 23 = false → signExtend ((8388608 : Nat) : Int) = ((8388608 : Nat) : Int)) ∧
    (-(2 : Int) ^ 23 ≤ signExtend ((8388608 : Nat) : Int) ∧ signExtend ((8388608 : Nat) : Int) < 2 ^ 23 ∧
      signExtend ((8388608 : Nat) : Int) % 2 ^ 24 = ((8388608 : Nat) : Int)) ∧
    (∀ r : Int, -(2 : Int) ^ 23 ≤ r → r < 2 ^ 23 → r % 2 ^ 24 = ((8388608 : Nat) : Int) →
      r = signExtend ((8388608 : Nat) : Int))) :=
  ⟨by norm_num, signExtend_twos_complement 8388608 (by norm_num)⟩

/-! ## Reset and Shutdown -/

theorem lineLevel_append_write (p : Pin) (tr : Trace) (s : State) :
    lineLevel p (tr ++ [Event.write p s]) = some s := by
  simp [lineLevel, levelStep, List.foldl_append]

/-- C8: from any history (so from any clock level), `Shutdown` followed at once
by `Reset` returns no error twice and leaves the clock line Low; `Shutdown`
alone leaves it High, and `Reset` alone leaves it Low. -/
theorem Shutdown_then_Reset_clock_low (w : World) :
    (Shutdown w).1 = none ∧
    lineLevel w.hx711.clockPin (Shutdown w).2.trace = some State.High ∧
    (Reset (Shutdown w).2).1 = none ∧
    lineLevel w.hx711.clockPin (Reset (Shutdown w).2).2.trace = some State.Low ∧
    (Reset w).1 = none ∧
    lineLevel w.hx711.clockPin (Reset w).2.trace = some State.Low := by
  refine ⟨rfl, ?_, rfl, ?_, rfl, ?_⟩
  · exact lineLevel_append_write _ _ _
  · exact lineLevel_append_write _ _ _
  · exact lineLevel_append_write _ _ _

/-- C9: `Reset` appends to the history exactly: clock Low, clock High, a sleep
of 70 µs, clock Low.  The sleep is at least 60 µs, no event of the call is on
the data pin's read/detect interface, and the driver struct is unchanged. -/
theorem Reset_sequence (w : World) :
    (Reset w).2.trace = w.trace ++
      [Event.write w.hx711.clockPin State.Low,
       Event.write w.hx711.clockPin State.High,
       Event.sleep (70 * Microsecond),
       Event.write w.hx711.clockPin State.Low] ∧
    60 * Microsecond ≤ 70 * Microsecond ∧
    samples w.hx711.dataPin (Reset w).2.trace = samples w.hx711.dataPin w.trace ∧
    edgeMode w.hx711.dataPin (Reset w).2.trace = edgeMode w.hx711.dataPin w.trace ∧
    (Reset w).2.hx711 = w.hx711 ∧
    (Reset w).1 = none := by
  refine ⟨?_, by decide, ?_, ?_, rfl, rfl⟩
  · simp [Reset, pinWrite, timeSleep, World.emit]
  · simp [Reset, pinWrite, timeSleep, World.emit, samples, List.filterMap_append]
  · simp [Reset, pinWrite, timeSleep, World.emit, edgeMode, edgeStep, List.foldl_append]

/-! ## The data-ready wait -/

theorem pollEdge_spec (env : Env) (n : Nat) (w : World) :
    (∃ k, k < n ∧
      env.edgeDetected (w.trace ++ pollEvents w.hx711.dataPin k) w.hx711.dataPin = true ∧
      pollEdge env n w =
        (true, ⟨w.hx711, w.trace ++ pollEvents w.hx711.dataPin k ++
          [Event.edgeDetected w.hx711.dataPin true]⟩)) ∨
    ((∀ k, k < n →
        env.edgeDetected (w.trace ++ pollEvents w.hx711.dataPin k) w.hx711.dataPin = false) ∧
      pollEdge env n w = (false, ⟨w.hx711, w.trace ++ pollEvents w.hx711.dataPin n⟩)) := by
  induction n generalizing w with
  | zero =>
    right
    refine ⟨fun k hk => absurd hk (Nat.not_lt_zero k), ?_⟩
    simp [pollEdge, pollEvents]
  | succ n ih =>
    cases h : env.edgeDetected w.trace w.hx711.dataPin with
    | true =>
      left
      refine ⟨0, Nat.succ_pos n, ?_, ?_⟩
      · simpa [pollEvents] using h
      · simp [pollEdge, pinEdgeDetected, h, pollEvents, World.emit]
    | false =>
      have hstep : pollEdge env (n + 1) w =
          pollEdge env n ⟨w.hx711, w.trace ++
            [Event.edgeDetected w.hx711.dataPin false, Event.sleep BUSY_LOOP_DELAY]⟩ := by
        simp [pollEdge, pinEdgeDetected, h, timeSleep, World.emit]
      rcases ih ⟨w.hx711, w.trace ++
          [Event.edgeDetected w.hx711.dataPin false, Event.sleep BUSY_LOOP_DELAY]⟩ with
        ⟨k, hk, hdet, hres⟩ | ⟨hnone, hres⟩
      · left
        refine ⟨k + 1, Nat.succ_lt_succ hk, ?_, ?_⟩
        · simpa [pollEvents] using hdet
        · rw [hstep, hres]; simp [pollEvents]
      · right
        refine ⟨?_, ?_⟩
        · intro k hk
          cases k with
          | zero => simpa [pollEvents] using h
          | succ k =>
            have := hnone k (Nat.lt_of_succ_lt_succ hk)
            simpa [pollEvents] using this
        · rw [hstep, hres]; simp [pollEvents]

/-- The three ways `waitForDataReady` can run, with the exact events of each:
data already Low; an edge seen at polling attempt `k + 1`; no edge in 1500
attempts. -/
theorem waitForDataReady_cases (env : Env) (w : World) :
    (env.read (w.trace ++ [Event.detect w.hx711.dataPin Edge.FallEdge,
        Event.write w.hx711.clockPin State.Low]) w.hx711.dataPin = State.Low ∧
      waitForDataReady env w = (none, ⟨w.hx711, w.trace ++
        [Event.detect w.hx711.dataPin Edge.FallEdge, Event.write w.hx711.clockPin State.Low,
         Event.read w.hx711.dataPin State.Low, Event.detect w.hx711.dataPin Edge.NoEdge]⟩)) ∨
    (env.read (w.trace ++ [Event.detect w.hx711.dataPin Edge.FallEdge,
        Event.write w.hx711.clockPin State.Low]) w.hx711.dataPin = State.High ∧
      ∃ k, k < EDGE_TRY_LOOP ∧
        env.edgeDetected (w.trace ++
          [Event.detect w.hx711.dataPin Edge.FallEdge, Event.write w.hx711.clockPin State.Low,
           Event.read w.hx711.dataPin State.High] ++ pollEvents w.hx711.dataPin k)
          w.hx711.dataPin = true ∧
        waitForDataReady env w = (none, ⟨w.hx711, w.trace ++
          [Event.detect w.hx711.dataPin Edge.FallEdge, Event.write w.hx711.clockPin State.Low,
           Event.read w.hx711.dataPin State.High] ++ pollEvents w.hx711.dataPin k ++
          [Event.edgeDetected w.hx711.dataPin true,
           Event.detect w.hx711.dataPin Edge.NoEdge]⟩)) ∨
    (env.read (w.trace ++ [Event.detect w.hx711.dataPin Edge.FallEdge,
        Event.write w.hx711.clockPin State.Low]) w.hx711.dataPin = State.High ∧
      (∀ k, k < EDGE_TRY_LOOP → env.edgeDetected (w.trace ++
          [Event.detect w.hx711.dataPin Edge.FallEdge, Event.write w.hx711.clockPin State.Low,
           Event.read w.hx711.dataPin State.High] ++ pollEvents w.hx711.dataPin k)
          w.hx711.dataPin = false) ∧
      waitForDataReady env w = (some GoError.ErrTimeout, ⟨w.hx711, w.trace ++
        [Event.detect w.hx711.dataPin Edge.FallEdge, Event.write w.hx711.clockPin State.Low,
         Event.read w.hx711.dataPin State.High] ++ pollEvents w.hx711.dataPin EDGE_TRY_LOOP ++
        [Event.detect w.hx711.dataPin Edge.NoEdge]⟩)) := by
  cases h : env.read (w.trace ++ [Event.detect w.hx711.dataPin Edge.FallEdge,
      Event.write w.hx711.clockPin State.Low]) w.hx711.dataPin with
  | Low =>
    left
    refine ⟨rfl, ?_⟩
    simp [waitForDataReady, pinDetect, pinWrite, pinRead, World.emit, h]
  | High =>
    right
    have hw : waitForDataReady env w =
        (match pollEdge env EDGE_TRY_LOOP ⟨w.hx711, w.trace ++
            [Event.detect w.hx711.dataPin Edge.FallEdge, Event.write w.hx711.clockPin State.Low,
             Event.read w.hx711.dataPin State.High]⟩ with
          | (true, w1) => (none, pinDetect w.hx711.dataPin Edge.NoEdge w1)
          | (false, w1) => (some GoError.ErrTimeout, pinDetect w.hx711.dataPin Edge.NoEdge w1)) := by
      simp [waitForDataReady, pinDetect, pinWrite, pinRead, World.emit, h]
    rcases pollEdge_spec env EDGE_TRY_LOOP ⟨w.hx711, w.trace ++
        [Event.detect w.hx711.dataPin Edge.FallEdge, Event.write w.hx711.clockPin State.Low,
         Event.read w.hx711.dataPin State.High]⟩ with ⟨k, hk, hdet, hres⟩ | ⟨hnone, hres⟩
    · left
      refine ⟨rfl, k, hk, hdet, ?_⟩
      rw [hw, hres]
      simp [pinDetect, World.emit]
    · right
      refine ⟨rfl, hnone, ?_⟩
      rw [hw, hres]
      simp [pinDetect, World.emit]

/-! ## The shift loop and the end pulses -/

theorem shl_one (a : Nat) : (a : Int) <<< (1 : Int) = ((2 * a : Nat) : Int) := by
  have h : (a : Int) <<< ((1 : Nat) : Int) = ((a <<< 1 : Nat) : Int) := Int.shiftLeft_coe_nat a 1
  rw [Nat.shiftLeft_eq] at h
  rw [show (1 : Int) = ((1 : Nat) : Int) from rfl, h]
  congr 1
  omega

theorem shiftStep_natCast (a : Nat) (s : State) :
    (if s = State.High then (a : Int) <<< (1 : Int) + 1 else (a : Int) <<< (1 : Int)) =
      ((2 * a + levelBit s : Nat) : Int) := by
  rw [shl_one]
  cases s
  · simp [levelBit]
  · simp [levelBit]

theorem setClockHighThenLow_eq (w : World) :
    setClockHighThenLow w = (none, ⟨w.hx711, w.trace ++
      [Event.write w.hx711.clockPin State.High, Event.write w.hx711.clockPin State.Low]⟩) := by
  simp [setClockHighThenLow, pinWrite, World.emit]

theorem shiftBits_spec (t : String) (env : Env) (n a : Nat) (w : World) :
    ∃ b : List State, b.length = n ∧
      shiftBits t env n (a : Int) w =
        (none, ((accumulate a b : Nat) : Int),
          ⟨w.hx711, w.trace ++ shiftEvents w.hx711.clockPin w.hx711.dataPin b⟩) := by
  induction n generalizing a w with
  | zero => exact ⟨[], rfl, by simp [shiftBits, accumulate, shiftEvents]⟩
  | succ n ih =>
    have hstep : shiftBits t env (n + 1) (a : Int) w =
        shiftBits t env n
          ((2 * a + levelBit (env.read (w.trace ++ [Event.write w.hx711.clockPin State.High,
            Event.write w.hx711.clockPin State.Low]) w.hx711.dataPin) : Nat) : Int)
          ⟨w.hx711, w.trace ++ [Event.write w.hx711.clockPin State.High,
            Event.write w.hx711.clockPin State.Low,
            Event.read w.hx711.dataPin (env.read (w.trace ++
              [Event.write w.hx711.clockPin State.High,
               Event.write w.hx711.clockPin State.Low]) w.hx711.dataPin)]⟩ := by
      rw [← shiftStep_natCast]
      simp [shiftBits, setClockHighThenLow_eq, pinRead, World.emit]
    rcases ih (2 * a + levelBit (env.read (w.trace ++ [Event.write w.hx711.clockPin State.High,
        Event.write w.hx711.clockPin State.Low]) w.hx711.dataPin))
      ⟨w.hx711, w.trace ++ [Event.write w.hx711.clockPin State.High,
        Event.write w.hx711.clockPin State.Low,
        Event.read w.hx711.dataPin (env.read (w.trace ++
          [Event.write w.hx711.clockPin State.High,
           Event.write w.hx711.clockPin State.Low]) w.hx711.dataPin)]⟩ with ⟨b, hlen, hres⟩
    refine ⟨env.read (w.trace ++ [Event.write w.hx711.clockPin State.High,
        Event.write w.hx711.clockPin State.Low]) w.hx711.dataPin :: b, by simp [hlen], ?_⟩
    rw [hstep, hres]
    simp [accumulate, shiftEvents]

theorem endPulses_spec (t : String) (n : Nat) (w : World) :
    endPulses t n w = (none, ⟨w.hx711, w.trace ++ pulseTrain w.hx711.clockPin n⟩) := by
  induction n generalizing w with
  | zero => simp [endPulses, pulseTrain]
  | succ n ih =>
    have hstep : endPulses t (n + 1) w = endPulses t n ⟨w.hx711, w.trace ++
        [Event.write w.hx711.clockPin State.High, Event.write w.hx711.clockPin State.Low]⟩ := by
      simp [endPulses, setClockHighThenLow_eq]
    rw [hstep, ih]
    simp [pulseTrain]

/-- A read whose wait succeeded: the result and the exact events after the wait. -/
theorem ReadDataRaw_of_ready (t : String) (env : Env) (w w1 : World)
    (hwait : waitForDataReady env w = (none, w1)) :
    ∃ b : List State, b.length = 24 ∧
      ReadDataRaw t env w =
        ((signExtend ((accumulate 0 b : Nat) : Int), none),
          ⟨w1.hx711, w1.trace ++ shiftEvents w1.hx711.clockPin w1.hx711.dataPin b ++
            pulseTrain w1.hx711.clockPin w1.hx711.numEndPulses.toNat⟩) := by
  rcases shiftBits_spec t env 24 0 w1 with ⟨b, hlen, hres⟩
  refine ⟨b, hlen, ?_⟩
  have h0 : ((0 : Nat) : Int) = 0 := rfl
  rw [h0] at hres
  simp [ReadDataRaw, hwait, hres, endPulses_spec]

/-- A read whose wait failed: the integer is 0, the error is the formatted
one, and nothing happens after the wait. -/
theorem ReadDataRaw_of_timeout (t : String) (env : Env) (w w1 : World) (err : GoError)
    (hwait : waitForDataReady env w = (some err, w1)) :
    ReadDataRaw t env w = ((0, some (Errorf t "waitForDataReady error: " err)), w1) := by
  simp [ReadDataRaw, hwait]

/-! ## Observations of the event blocks -/

theorem clockWrites_append (p : Pin) (a b : Trace) :
    clockWrites p (a ++ b) = clockWrites p a ++ clockWrites p b := by
  simp [clockWrites, List.filterMap_append]

theorem samples_append (p : Pin) (a b : Trace) :
    samples p (a ++ b) = samples p a ++ samples p b := by
  simp [samples, List.filterMap_append]

theorem clockWrites_shiftEvents (cp dp : Pin) (b : List State) :
    clockWrites cp (shiftEvents cp dp b) = highLow b.length := by
  induction b with
  | nil => rfl
  | cons s b ih =>
    have h : clockWrites cp (shiftEvents cp dp (s :: b)) =
        State.High :: State.Low :: clockWrites cp (shiftEvents cp dp b) := by
      simp [clockWrites, shiftEvents]
    rw [h, ih]; rfl

theorem clockWrites_pulseTrain (cp : Pin) (n : Nat) :
    clockWrites cp (pulseTrain cp n) = highLow n := by
  induction n with
  | zero => rfl
  | succ n ih =>
    have h : clockWrites cp (pulseTrain cp (n + 1)) =
        State.High :: State.Low :: clockWrites cp (pulseTrain cp n) := by
      simp [clockWrites, pulseTrain]
    rw [h, ih]; rfl

theorem clockWrites_pollEvents (cp dp : Pin) (n : Nat) :
    clockWrites cp (pollEvents dp n) = [] := by
  induction n with
  | zero => rfl
  | succ n ih =>
    have h : clockWrites cp (pollEvents dp (n + 1)) = clockWrites cp (pollEvents dp n) := by
      simp [clockWrites, pollEvents]
    rw [h, ih]

theorem samples_shiftEvents (cp dp : Pin) (b : List State) :
    samples dp (shiftEvents cp dp b) = b := by
  induction b with
  | nil => rfl
  | cons s b ih =>
    have h : samples dp (shiftEvents cp dp (s :: b)) = s :: samples dp (shiftEvents cp dp b) := by
      simp [samples, shiftEvents]
    rw [h, ih]

theorem samples_pulseTrain (cp dp : Pin) (n : Nat) :
    samples dp (pulseTrain cp n) = [] := by
  induction n with
  | zero => rfl
  | succ n ih =>
    have h : samples dp (pulseTrain cp (n + 1)) = samples dp (pulseTrain cp n) := by
      simp [samples, pulseTrain]
    rw [h, ih]

theorem samples_pollEvents (dp : Pin) (n : Nat) :
    samples dp (pollEvents dp n) = [] := by
  induction n with
  | zero => rfl
  | succ n ih =>
    have h : samples dp (pollEvents dp (n + 1)) = samples dp (pollEvents dp n) := by
      simp [samples, pollEvents]
    rw [h, ih]

theorem highLow_add (m n : Nat) : highLow (m + n) = highLow m ++ highLow n := by
  induction m with
  | zero => simp [highLow]
  | succ m ih =>
    have h : m + 1 + n = (m + n) + 1 := by omega
    rw [h]
    simp [highLow, ih]

theorem highLow_length (n : Nat) : (highLow n).length = 2 * n := by
  induction n with
  | zero => rfl
  | succ n ih => simp [highLow, ih]; omega

theorem highLow_chain (n : Nat) :
    List.Chain (fun a b : State => a ≠ b) State.Low (highLow n) := by
  induction n with
  | zero => exact List.Chain.nil
  | succ n ih =>
    exact List.Chain.cons (by decide) (List.Chain.cons (by decide) ih)

theorem highLow_getLast (n : Nat) : (State.Low :: highLow n).getLast? = some State.Low := by
  induction n with
  | zero => rfl
  | succ n ih =>
    have h : State.Low :: highLow (n + 1) = [State.Low, State.High] ++ (State.Low :: highLow n) := rfl
    rw [h, List.getLast?_append, ih]
    rfl

theorem lineLevel_eq_getLast (p : Pin) (tr : Trace) :
    lineLevel p tr = (clockWrites p tr).getLast? := by
  induction tr using List.reverseRecOn with
  | nil => rfl
  | append_singleton tr e ih =>
    have h1 : lineLevel p (tr ++ [e]) = levelStep p (lineLevel p tr) e := by
      simp [lineLevel, List.foldl_append]
    rw [h1, clockWrites_append, ih]
    cases e with
    | write q s =>
      by_cases hq : q = p
      · simp [levelStep, clockWrites, hq]
      · simp [levelStep, clockWrites, hq]
    | _ => simp [levelStep, clockWrites]

theorem edgeMode_append_quiet (p : Pin) (tr l : Trace) (h : ∀ e ∈ l, Event.isDetect e = false) :
    edgeMode p (tr ++ l) = edgeMode p tr := by
  induction l using List.reverseRecOn with
  | nil => simp
  | append_singleton l e ih =>
    have hl : ∀ e ∈ l, Event.isDetect e = false := fun x hx => h x (by simp [hx])
    have he : Event.isDetect e = false := h e (by simp)
    have h1 : edgeMode p (tr ++ (l ++ [e])) = edgeStep p (edgeMode p (tr ++ l)) e := by
      simp [edgeMode, List.foldl_append]
    rw [h1, ih hl]
    cases e with
    | detect q m => simp [Event.isDetect] at he
    | _ => rfl

theorem edgeMode_append_detect (p : Pin) (tr : Trace) (m : Edge) :
    edgeMode p (tr ++ [Event.detect p m]) = some m := by
  simp [edgeMode, edgeStep, List.foldl_append]

theorem shiftEvents_quiet (cp dp : Pin) (b : List State) :
    ∀ e ∈ shiftEvents cp dp b, Event.isDetect e = false ∧ Event.isEdgeCheck e = false ∧
      Event.isSleep e = false := by
  induction b with
  | nil => intro e he; simp [shiftEvents] at he
  | cons s b ih =>
    intro e he
    simp only [shiftEvents, List.mem_cons] at he
    rcases he with rfl | rfl | rfl | he
    · exact ⟨rfl, rfl, rfl⟩
    · exact ⟨rfl, rfl, rfl⟩
    · exact ⟨rfl, rfl, rfl⟩
    · exact ih e he

theorem pulseTrain_quiet (cp : Pin) (n : Nat) :
    ∀ e ∈ pulseTrain cp n, Event.isDetect e = false ∧ Event.isEdgeCheck e = false ∧
      Event.isSleep e = false := by
  induction n with
  | zero => intro e he; simp [pulseTrain] at he
  | succ n ih =>
    intro e he
    simp only [pulseTrain, List.mem_cons] at he
    rcases he with rfl | rfl | he
    · exact ⟨rfl, rfl, rfl⟩
    · exact ⟨rfl, rfl, rfl⟩
    · exact ih e he

theorem pollEvents_noDetect (dp : Pin) (n : Nat) :
    ∀ e ∈ pollEvents dp n, Event.isDetect e = false := by
  induction n with
  | zero => intro e he; simp [pollEvents] at he
  | succ n ih =>
    intro e he
    simp only [pollEvents, List.mem_cons] at he
    rcases he with rfl | rfl | he
    · rfl
    · rfl
    · exact ih e he

theorem pollEvents_checks (dp : Pin) (n : Nat) :
    ((pollEvents dp n).filter Event.isEdgeCheck).length = n ∧
    ((pollEvents dp n).filter Event.isSleep).length = n := by
  induction n with
  | zero => exact ⟨rfl, rfl⟩
  | succ n ih =>
    constructor
    · simp [pollEvents, Event.isEdgeCheck, List.filter_cons, ih.1]
    · simp [pollEvents, Event.isSleep, List.filter_cons, ih.2]

/-! ## Consequences for the wait step -/

/-- Every run of `waitForDataReady` has one shape: arm, clock Low, one read,
`k` fruitless polls, possibly one successful poll, disarm. -/
theorem waitForDataReady_shape (env : Env) (w : World) :
    ∃ (lvl : State) (k : Nat) (last : List Event),
      k ≤ EDGE_TRY_LOOP ∧
      (last = [] ∨ last = [Event.edgeDetected w.hx711.dataPin true]) ∧
      (waitForDataReady env w).2 = ⟨w.hx711, w.trace ++
        Event.detect w.hx711.dataPin Edge.FallEdge ::
          ([Event.write w.hx711.clockPin State.Low, Event.read w.hx711.dataPin lvl] ++
            pollEvents w.hx711.dataPin k ++ last) ++
        [Event.detect w.hx711.dataPin Edge.NoEdge]⟩ := by
  rcases waitForDataReady_cases env w with ⟨_, h⟩ | ⟨_, k, hk, _, h⟩ | ⟨_, _, h⟩
  · exact ⟨State.Low, 0, [], Nat.zero_le _, Or.inl rfl, by rw [h]; simp [pollEvents]⟩
  · exact ⟨State.High, k, [Event.edgeDetected w.hx711.dataPin true], Nat.le_of_lt hk,
      Or.inr rfl, by rw [h]; simp⟩
  · exact ⟨State.High, EDGE_TRY_LOOP, [], Nat.le_refl _, Or.inl rfl, by rw [h]; simp⟩

theorem waitForDataReady_hx711 (env : Env) (w : World) :
    (waitForDataReady env w).2.hx711 = w.hx711 := by
  rcases waitForDataReady_shape env w with ⟨lvl, k, last, _, _, h⟩
  rw [h]

theorem waitForDataReady_clockWrites (env : Env) (w : World) :
    clockWrites w.hx711.clockPin (waitForDataReady env w).2.trace =
      clockWrites w.hx711.clockPin w.trace ++ [State.Low] := by
  rcases waitForDataReady_cases env w with ⟨_, h⟩ | ⟨_, k, hk, _, h⟩ | ⟨_, _, h⟩
  · rw [h]
    simp [clockWrites, List.filterMap_append]
  · rw [h]
    simp only [clockWrites_append, clockWrites_pollEvents]
    simp [clockWrites]
  · rw [h]
    simp only [clockWrites_append, clockWrites_pollEvents]
    simp [clockWrites]

theorem waitForDataReady_edgeMode (env : Env) (w : World) :
    edgeMode w.hx711.dataPin (waitForDataReady env w).2.trace = some Edge.NoEdge := by
  rcases waitForDataReady_shape env w with ⟨lvl, k, last, _, _, h⟩
  rw [h]
  exact edgeMode_append_detect _ _ _

theorem ReadDataRaw_ok_iff (t : String) (env : Env) (w : World) :
    (ReadDataRaw t env w).1.2 = none ↔ (waitForDataReady env w).1 = none := by
  cases hw : waitForDataReady env w with
  | mk r w1 =>
    cases r with
    | none =>
      rcases ReadDataRaw_of_ready t env w w1 hw with ⟨b, _, h⟩
      rw [h]
    | some err =>
      rw [ReadDataRaw_of_timeout t env w w1 err hw]
      simp

/-- After the wait, `ReadDataRaw` only appends clock writes and data reads. -/
theorem ReadDataRaw_after_wait (t : String) (env : Env) (w : World) :
    ∃ rest : List Event,
      (ReadDataRaw t env w).2.trace = (waitForDataReady env w).2.trace ++ rest ∧
      (∀ e ∈ rest, Event.isDetect e = false ∧ Event.isEdgeCheck e = false ∧
        Event.isSleep e = false) := by
  cases hw : waitForDataReady env w with
  | mk r w1 =>
    cases r with
    | none =>
      rcases ReadDataRaw_of_ready t env w w1 hw with ⟨b, _, h⟩
      refine ⟨shiftEvents w1.hx711.clockPin w1.hx711.dataPin b ++
        pulseTrain w1.hx711.clockPin w1.hx711.numEndPulses.toNat, ?_, ?_⟩
      · rw [h]; simp
      · intro e he
        rcases List.mem_append.mp he with he | he
        · exact shiftEvents_quiet _ _ _ e he
        · exact pulseTrain_quiet _ _ e he
    | some err =>
      rw [ReadDataRaw_of_timeout t env w w1 err hw]
      exact ⟨[], by simp, by simp⟩

/-! ## C3: the clock pulses of a successful read -/

/-- C3: when `ReadDataRaw` succeeds, the levels it writes to the clock pin are
one Low followed by `24 + numEndPulses` High-then-Low pairs (the loop bound
`numEndPulses` counts as 0 when negative, and is itself when not): the writes
alternate starting from Low, there are `1 + 2 * (24 + numEndPulses)` of them,
and the clock line is Low on return. -/
theorem ReadDataRaw_clock_pulses (t : String) (env : Env) (w : World)
    (hok : (ReadDataRaw t env w).1.2 = none) :
    clockWrites w.hx711.clockPin (ReadDataRaw t env w).2.trace =
      clockWrites w.hx711.clockPin w.trace ++
        State.Low :: highLow (24 + w.hx711.numEndPulses.toNat) ∧
    (0 ≤ w.hx711.numEndPulses →
      ((24 + w.hx711.numEndPulses.toNat : Nat) : Int) = 24 + w.hx711.numEndPulses) ∧
    List.Chain (fun a b : State => a ≠ b) State.Low
      (highLow (24 + w.hx711.numEndPulses.toNat)) ∧
    (State.Low :: highLow (24 + w.hx711.numEndPulses.toNat)).length =
      1 + 2 * (24 + w.hx711.numEndPulses.toNat) ∧
    lineLevel w.hx711.clockPin (ReadDataRaw t env w).2.trace = some State.Low := by
  have hwait := (ReadDataRaw_ok_iff t env w).mp hok
  have hhx := waitForDataReady_hx711 env w
  have hcw := waitForDataReady_clockWrites env w
  cases hw : waitForDataReady env w with
  | mk r w1 =>
    rw [hw] at hwait hhx hcw
    simp only at hwait hhx hcw
    subst hwait
    rcases ReadDataRaw_of_ready t env w w1 hw with ⟨b, hlen, h⟩
    have hwrites : clockWrites w.hx711.clockPin (ReadDataRaw t env w).2.trace =
        clockWrites w.hx711.clockPin w.trace ++
          State.Low :: highLow (24 + w.hx711.numEndPulses.toNat) := by
      rw [h]
      simp only [hhx, clockWrites_append, hcw, clockWrites_shiftEvents, clockWrites_pulseTrain,
        hlen, highLow_add]
      simp
    refine ⟨hwrites, ?_, highLow_chain _, ?_, ?_⟩
    · intro hn
      rw [Nat.cast_add, Int.toNat_of_nonneg hn]
      rfl
    · simp only [List.length_cons, highLow_length]; omega
    · rw [lineLevel_eq_getLast, hwrites, List.getLast?_append, highLow_getLast]
      rfl

/-- A driver with one end pulse whose data line is Low from the start: the read
succeeds and writes Low, then 25 pulses. -/
theorem ReadDataRaw_clock_pulses_witness :
    ((ReadDataRaw "timeout" ⟨fun _ _ => State.Low, fun _ _ => false⟩
        ⟨⟨5, 6, 1, 0, 0⟩, []⟩).1.2 = none) ∧
    (clockWrites 5 (ReadDataRaw "timeout" ⟨fun _ _ => State.Low, fun _ _ => false⟩
        ⟨⟨5, 6, 1, 0, 0⟩, []⟩).2.trace =
      clockWrites 5 [] ++ State.Low :: highLow (24 + (1 : Int).toNat) ∧
    (0 ≤ (1 : Int) → ((24 + (1 : Int).toNat : Nat) : Int) = 24 + 1) ∧
    List.Chain (fun a b : State => a ≠ b) State.Low (highLow (24 + (1 : Int).toNat)) ∧
    (State.Low :: highLow (24 + (1 : Int).toNat)).length = 1 + 2 * (24 + (1 : Int).toNat) ∧
    lineLevel 5 (ReadDataRaw "timeout" ⟨fun _ _ => State.Low, fun _ _ => false⟩
        ⟨⟨5, 6, 1, 0, 0⟩, []⟩).2.trace = some State.Low) :=
  ⟨rfl, ReadDataRaw_clock_pulses "timeout" ⟨fun _ _ => State.Low, fun _ _ => false⟩
    ⟨⟨5, 6, 1, 0, 0⟩, []⟩ rfl⟩

/-! ## C4: the timeout path -/

/-- C4: if the data line reads High at wait-start and no edge is ever reported,
`ReadDataRaw` fails with integer 0 after appending exactly: arm, clock Low, the
one read, 1500 times (edge check, 250 µs sleep), disarm.  So it makes exactly
1500 edge checks and 1500 sleeps, its only clock write is the one Low, and its
only data read is the wait-start sample. -/
theorem ReadDataRaw_timeout_exact (t : String) (env : Env) (w : World)
    (hhigh : env.read (w.trace ++ [Event.detect w.hx711.dataPin Edge.FallEdge,
        Event.write w.hx711.clockPin State.Low]) w.hx711.dataPin = State.High)
    (hnever : ∀ tr : Trace, env.edgeDetected tr w.hx711.dataPin = false) :
    (ReadDataRaw t env w).2.trace = w.trace ++
      [Event.detect w.hx711.dataPin Edge.FallEdge, Event.write w.hx711.clockPin State.Low,
       Event.read w.hx711.dataPin State.High] ++
      pollEvents w.hx711.dataPin 1500 ++ [Event.detect w.hx711.dataPin Edge.NoEdge] ∧
    (∃ err, (ReadDataRaw t env w).1 = (0, some err)) ∧
    ((ReadDataRaw t env w).2.trace.filter Event.isEdgeCheck).length =
      (w.trace.filter Event.isEdgeCheck).length + 1500 ∧
    ((ReadDataRaw t env w).2.trace.filter Event.isSleep).length =
      (w.trace.filter Event.isSleep).length + 1500 ∧
    BUSY_LOOP_DELAY = 250 * Microsecond ∧
    clockWrites w.hx711.clockPin (ReadDataRaw t env w).2.trace =
      clockWrites w.hx711.clockPin w.trace ++ [State.Low] ∧
    samples w.hx711.dataPin (ReadDataRaw t env w).2.trace =
      samples w.hx711.dataPin w.trace ++ [State.High] := by
  rcases waitForDataReady_cases env w with ⟨hl, _⟩ | ⟨_, k, _, hdet, _⟩ | ⟨_, _, h⟩
  · rw [hhigh] at hl; cases hl
  · rw [hnever] at hdet; cases hdet
  · have hr := ReadDataRaw_of_timeout t env w _ _ h
    have htr : (ReadDataRaw t env w).2.trace = w.trace ++
        [Event.detect w.hx711.dataPin Edge.FallEdge, Event.write w.hx711.clockPin State.Low,
         Event.read w.hx711.dataPin State.High] ++
        pollEvents w.hx711.dataPin 1500 ++ [Event.detect w.hx711.dataPin Edge.NoEdge] := by
      rw [hr]; rfl
    refine ⟨htr, ⟨_, by rw [hr]⟩, ?_, ?_, rfl, ?_, ?_⟩
    · rw [htr]
      simp [List.filter_append, (pollEvents_checks w.hx711.dataPin 1500).1, Event.isEdgeCheck]
    · rw [htr]
      simp [List.filter_append, (pollEvents_checks w.hx711.dataPin 1500).2, Event.isSleep]
    · rw [htr]
      simp only [clockWrites_append, clockWrites_pollEvents]
      simp [clockWrites]
    · rw [htr]
      simp only [samples_append, samples_pollEvents]
      simp [samples]

/-- The chip that never becomes ready makes a fresh driver time out after 1500
polls. -/
theorem ReadDataRaw_timeout_exact_witness :
    (stuckChip.read (freshWorld.trace ++ [Event.detect freshWorld.hx711.dataPin Edge.FallEdge,
        Event.write freshWorld.hx711.clockPin State.Low]) freshWorld.hx711.dataPin = State.High) ∧
    (∀ tr : Trace, stuckChip.edgeDetected tr freshWorld.hx711.dataPin = false) ∧
    ((ReadDataRaw "timeout" stuckChip freshWorld).2.trace = freshWorld.trace ++
      [Event.detect freshWorld.hx711.dataPin Edge.FallEdge,
       Event.write freshWorld.hx711.clockPin State.Low,
       Event.read freshWorld.hx711.dataPin State.High] ++
      pollEvents freshWorld.hx711.dataPin 1500 ++
      [Event.detect freshWorld.hx711.dataPin Edge.NoEdge] ∧
    (∃ err, (ReadDataRaw "timeout" stuckChip freshWorld).1 = (0, some err)) ∧
    ((ReadDataRaw "timeout" stuckChip freshWorld).2.trace.filter Event.isEdgeCheck).length =
      (freshWorld.trace.filter Event.isEdgeCheck).length + 1500 ∧
    ((ReadDataRaw "timeout" stuckChip freshWorld).2.trace.filter Event.isSleep).length =
      (freshWorld.trace.filter Event.isSleep).length + 1500 ∧
    BUSY_LOOP_DELAY = 250 * Microsecond ∧
    clockWrites freshWorld.hx711.clockPin (ReadDataRaw "timeout" stuckChip freshWorld).2.trace =
      clockWrites freshWorld.hx711.clockPin freshWorld.trace ++ [State.Low] ∧
    samples freshWorld.hx711.dataPin (ReadDataRaw "timeout" stuckChip freshWorld).2.trace =
      samples freshWorld.hx711.dataPin freshWorld.trace ++ [State.High]) :=
  ⟨rfl, fun _ => rfl,
    ReadDataRaw_timeout_exact "timeout" stuckChip freshWorld rfl (fun _ => rfl)⟩

/-! ## C5: the error of the timeout path -/

theorem waitForDataReady_error (env : Env) (w : World) (err : GoError)
    (h : (waitForDataReady env w).1 = some err) : err = GoError.ErrTimeout := by
  rcases waitForDataReady_cases env w with ⟨_, hw⟩ | ⟨_, k, _, _, hw⟩ | ⟨_, _, hw⟩
  · rw [hw] at h; cases h
  · rw [hw] at h; cases h
  · rw [hw] at h; cases h; rfl

theorem stuckChip_times_out (w : World) :
    (waitForDataReady stuckChip w).1 = some GoError.ErrTimeout := by
  rcases waitForDataReady_cases stuckChip w with ⟨hl, _⟩ | ⟨_, k, _, hdet, _⟩ | ⟨_, _, hw⟩
  · cases hl
  · cases hdet
  · rw [hw]

theorem label_ne (t s : String) :
    "waitForDataReady error: " ++ t ≠ "setClockHighThenLow error: " ++ s := by
  intro h
  have h2 := congrArg String.data h
  simp only [String.data_append] at h2
  have h3 := congrArg List.head? h2
  simp only [List.cons_append, List.head?_cons, Option.some.injEq] at h3
  revert h3
  decide

/-- C5 as stated fails: with a chip that never becomes ready the wait step
returns `ErrTimeout`, but the error `ReadDataRaw` returns is another value. -/
theorem ReadDataRaw_error_is_not_ErrTimeout :
    (waitForDataReady stuckChip freshWorld).1 = some GoError.ErrTimeout ∧
    (ReadDataRaw "timeout" stuckChip freshWorld).1.2 ≠ some GoError.ErrTimeout := by
  refine ⟨stuckChip_times_out freshWorld, ?_⟩
  cases hw : waitForDataReady stuckChip freshWorld with
  | mk r w1 =>
    have h := stuckChip_times_out freshWorld
    rw [hw] at h
    simp only at h
    subst h
    rw [ReadDataRaw_of_timeout "timeout" stuckChip freshWorld w1 _ hw]
    simp [Errorf]

/-- C5, amended: when the wait step times out, `ReadDataRaw` returns the integer
0 and a freshly formatted error whose text is "waitForDataReady error: "
followed by the text of `ErrTimeout`.  That error is not the `ErrTimeout` value,
its text differs from every "setClockHighThenLow error: ..." text, nothing
happens after the wait, and no other error is ever returned by `ReadDataRaw`. -/
theorem ReadDataRaw_timeout_error (t : String) (env : Env) (w : World)
    (hto : (waitForDataReady env w).1 = some GoError.ErrTimeout) :
    (ReadDataRaw t env w).1 =
      (0, some (GoError.errorString ("waitForDataReady error: " ++ t))) ∧
    (ReadDataRaw t env w).1.2 ≠ some GoError.ErrTimeout ∧
    (∀ e : GoError, GoError.errorString ("waitForDataReady error: " ++ t) ≠
      Errorf t "setClockHighThenLow error: " e) ∧
    (ReadDataRaw t env w).2 = (waitForDataReady env w).2 ∧
    (∀ (env1 : Env) (w1 : World) (e : GoError), (ReadDataRaw t env1 w1).1.2 = some e →
      (waitForDataReady env1 w1).1 = some GoError.ErrTimeout ∧
      (ReadDataRaw t env1 w1).1 =
        (0, some (GoError.errorString ("waitForDataReady error: " ++ t)))) := by
  have key : ∀ (env1 : Env) (w1 : World),
      (waitForDataReady env1 w1).1 = some GoError.ErrTimeout →
      (ReadDataRaw t env1 w1).1 =
        (0, some (GoError.errorString ("waitForDataReady error: " ++ t))) ∧
      (ReadDataRaw t env1 w1).2 = (waitForDataReady env1 w1).2 := by
    intro env1 w1 h
    cases hw : waitForDataReady env1 w1 with
    | mk r w2 =>
      rw [hw] at h
      simp only at h
      subst h
      rw [ReadDataRaw_of_timeout t env1 w1 w2 _ hw]
      exact ⟨rfl, rfl⟩
  refine ⟨(key env w hto).1, ?_, ?_, (key env w hto).2, ?_⟩
  · rw [(key env w hto).1]
    simp
  · intro e h
    simp only [Errorf, GoError.errorString.injEq] at h
    exact label_ne t _ h
  · intro env1 w1 e he
    have hne : (waitForDataReady env1 w1).1 ≠ none := by
      intro hnone
      rw [(ReadDataRaw_ok_iff t env1 w1).mpr hnone] at he
      cases he
    cases hr : (waitForDataReady env1 w1).1 with
    | none => exact absurd hr hne
    | some err =>
      have := waitForDataReady_error env1 w1 err hr
      subst this
      exact ⟨rfl, (key env1 w1 hr).1⟩

/-- The chip that never becomes ready: a fresh driver gets integer 0 and the
formatted error. -/
theorem ReadDataRaw_timeout_error_witness :
    ((waitForDataReady stuckChip freshWorld).1 = some GoError.ErrTimeout) ∧
    ((ReadDataRaw "timeout" stuckChip freshWorld).1 =
      (0, some (GoError.errorString ("waitForDataReady error: " ++ "timeout"))) ∧
    (ReadDataRaw "timeout" stuckChip freshWorld).1.2 ≠ some GoError.ErrTimeout ∧
    (∀ e : GoError, GoError.errorString ("waitForDataReady error: " ++ "timeout") ≠
      Errorf "timeout" "setClockHighThenLow error: " e) ∧
    (ReadDataRaw "timeout" stuckChip freshWorld).2 = (waitForDataReady stuckChip freshWorld).2 ∧
    (∀ (env1 : Env) (w1 : World) (e : GoError), (ReadDataRaw "timeout" env1 w1).1.2 = some e →
      (waitForDataReady env1 w1).1 = some GoError.ErrTimeout ∧
      (ReadDataRaw "timeout" env1 w1).1 =
        (0, some (GoError.errorString ("waitForDataReady error: " ++ "timeout"))))) :=
  ⟨stuckChip_times_out freshWorld,
    ReadDataRaw_timeout_error "timeout" stuckChip freshWorld (stuckChip_times_out freshWorld)⟩

/-! ## C6: the data pin is disarmed on every exit of the wait -/

/-- C6: whatever the data pin does, the events of `waitForDataReady` are the
falling-edge arming, then events none of which is a `Detect` (the clock write,
the read and all edge checks with their sleeps), then one `Detect(NoEdge)` as
the very last event.  So the edge mode of the data pin is `NoEdge` when the
wait returns, and stays `NoEdge` at every later moment of `ReadDataRaw`, up to
and including its return. -/
theorem waitForDataReady_disarms (t : String) (env : Env) (w : World) :
    (∃ mid : List Event,
      (waitForDataReady env w).2.trace = w.trace ++
        Event.detect w.hx711.dataPin Edge.FallEdge :: mid ++
        [Event.detect w.hx711.dataPin Edge.NoEdge] ∧
      (∀ e ∈ mid, Event.isDetect e = false)) ∧
    edgeMode w.hx711.dataPin (waitForDataReady env w).2.trace = some Edge.NoEdge ∧
    (∀ pre : Trace, (waitForDataReady env w).2.trace <+: pre →
      pre <+: (ReadDataRaw t env w).2.trace →
      edgeMode w.hx711.dataPin pre = some Edge.NoEdge) ∧
    edgeMode w.hx711.dataPin (ReadDataRaw t env w).2.trace = some Edge.NoEdge := by
  have hpre : ∀ pre : Trace, (waitForDataReady env w).2.trace <+: pre →
      pre <+: (ReadDataRaw t env w).2.trace →
      edgeMode w.hx711.dataPin pre = some Edge.NoEdge := by
    intro pre h1 h2
    rcases ReadDataRaw_after_wait t env w with ⟨rest, hrest, hq⟩
    rcases h1 with ⟨l, rfl⟩
    rw [hrest] at h2
    have hl : l <+: rest := (List.prefix_append_right_inj _).mp h2
    rw [edgeMode_append_quiet _ _ _ (fun e he => (hq e (hl.subset he)).1)]
    exact waitForDataReady_edgeMode env w
  refine ⟨?_, waitForDataReady_edgeMode env w, hpre, ?_⟩
  · rcases waitForDataReady_shape env w with ⟨lvl, k, last, _, hlast, h⟩
    refine ⟨[Event.write w.hx711.clockPin State.Low, Event.read w.hx711.dataPin lvl] ++
      pollEvents w.hx711.dataPin k ++ last, by rw [h], ?_⟩
    intro e he
    rcases List.mem_append.mp he with he | he
    · rcases List.mem_append.mp he with he | he
      · simp only [List.mem_cons, List.mem_singleton, List.not_mem_nil, or_false] at he
        rcases he with rfl | rfl
        · rfl
        · rfl
      · exact pollEvents_noDetect _ _ e he
    · rcases hlast with rfl | rfl
      · cases he
      · simp only [List.mem_singleton] at he
        subst he
        rfl
  · rcases ReadDataRaw_after_wait t env w with ⟨rest, hrest, _⟩
    exact hpre _ (by rw [hrest]; exact List.prefix_append _ _) (List.prefix_refl _)

/-! ## C7: the fast path -/

/-- C7: if the one read at wait-start returns Low, the wait appends exactly:
arm, clock Low, that read, disarm, and succeeds; `ReadDataRaw` then shifts in 24
levels and sends the end pulses, and the whole call makes no edge check and no
sleep. -/
theorem ReadDataRaw_fast_path (t : String) (env : Env) (w : World)
    (hlow : env.read (w.trace ++ [Event.detect w.hx711.dataPin Edge.FallEdge,
        Event.write w.hx711.clockPin State.Low]) w.hx711.dataPin = State.Low) :
    waitForDataReady env w = (none, ⟨w.hx711, w.trace ++
      [Event.detect w.hx711.dataPin Edge.FallEdge, Event.write w.hx711.clockPin State.Low,
       Event.read w.hx711.dataPin State.Low, Event.detect w.hx711.dataPin Edge.NoEdge]⟩) ∧
    (∃ b : List State, b.length = 24 ∧
      ReadDataRaw t env w = ((signExtend ((accumulate 0 b : Nat) : Int), none),
        ⟨w.hx711, w.trace ++
          [Event.detect w.hx711.dataPin Edge.FallEdge, Event.write w.hx711.clockPin State.Low,
           Event.read w.hx711.dataPin State.Low, Event.detect w.hx711.dataPin Edge.NoEdge] ++
          shiftEvents w.hx711.clockPin w.hx711.dataPin b ++
          pulseTrain w.hx711.clockPin w.hx711.numEndPulses.toNat⟩)) ∧
    (ReadDataRaw t env w).2.trace.filter Event.isEdgeCheck = w.trace.filter Event.isEdgeCheck ∧
    (ReadDataRaw t env w).2.trace.filter Event.isSleep = w.trace.filter Event.isSleep := by
  have hw : waitForDataReady env w = (none, ⟨w.hx711, w.trace ++
      [Event.detect w.hx711.dataPin Edge.FallEdge, Event.write w.hx711.clockPin State.Low,
       Event.read w.hx711.dataPin State.Low, Event.detect w.hx711.dataPin Edge.NoEdge]⟩) := by
    rcases waitForDataReady_cases env w with ⟨_, h⟩ | ⟨hh, _⟩ | ⟨hh, _⟩
    · exact h
    · rw [hlow] at hh; cases hh
    · rw [hlow] at hh; cases hh
  rcases ReadDataRaw_of_ready t env w _ hw with ⟨b, hlen, h⟩
  have hquiet : ∀ e ∈ shiftEvents w.hx711.clockPin w.hx711.dataPin b ++
      pulseTrain w.hx711.clockPin w.hx711.numEndPulses.toNat,
      Event.isEdgeCheck e = false ∧ Event.isSleep e = false := by
    intro e he
    rcases List.mem_append.mp he with he | he
    · exact (shiftEvents_quiet _ _ _ e he).2
    · exact (pulseTrain_quiet _ _ e he).2
  have hf1 : (shiftEvents w.hx711.clockPin w.hx711.dataPin b ++
      pulseTrain w.hx711.clockPin w.hx711.numEndPulses.toNat).filter Event.isEdgeCheck = [] :=
    List.filter_eq_nil_iff.mpr (fun e he => by simp [(hquiet e he).1])
  have hf2 : (shiftEvents w.hx711.clockPin w.hx711.dataPin b ++
      pulseTrain w.hx711.clockPin w.hx711.numEndPulses.toNat).filter Event.isSleep = [] :=
    List.filter_eq_nil_iff.mpr (fun e he => by simp [(hquiet e he).2])
  refine ⟨hw, ⟨b, hlen, h⟩, ?_, ?_⟩
  · rw [h]
    simp only [List.append_assoc, List.filter_append, hf1]
    simp [Event.isEdgeCheck]
  · rw [h]
    simp only [List.append_assoc, List.filter_append, hf2]
    simp [Event.isSleep]

/-- The fast path on a simulated chip that is ready from the start. -/
theorem ReadDataRaw_fast_path_witness :
    (((simChip 0x000001).read (freshWorld.trace ++
        [Event.detect freshWorld.hx711.dataPin Edge.FallEdge,
         Event.write freshWorld.hx711.clockPin State.Low]) freshWorld.hx711.dataPin = State.Low)) ∧
    (waitForDataReady (simChip 0x000001) freshWorld = (none, ⟨freshWorld.hx711, freshWorld.trace ++
      [Event.detect freshWorld.hx711.dataPin Edge.FallEdge,
       Event.write freshWorld.hx711.clockPin State.Low,
       Event.read freshWorld.hx711.dataPin State.Low,
       Event.detect freshWorld.hx711.dataPin Edge.NoEdge]⟩) ∧
    (∃ b : List State, b.length = 24 ∧
      ReadDataRaw "timeout" (simChip 0x000001) freshWorld =
        ((signExtend ((accumulate 0 b : Nat) : Int), none),
        ⟨freshWorld.hx711, freshWorld.trace ++
          [Event.detect freshWorld.hx711.dataPin Edge.FallEdge,
           Event.write freshWorld.hx711.clockPin State.Low,
           Event.read freshWorld.hx711.dataPin State.Low,
           Event.detect freshWorld.hx711.dataPin Edge.NoEdge] ++
          shiftEvents freshWorld.hx711.clockPin freshWorld.hx711.dataPin b ++
          pulseTrain freshWorld.hx711.clockPin freshWorld.hx711.numEndPulses.toNat⟩)) ∧
    (ReadDataRaw "timeout" (simChip 0x000001) freshWorld).2.trace.filter Event.isEdgeCheck =
      freshWorld.trace.filter Event.isEdgeCheck ∧
    (ReadDataRaw "timeout" (simChip 0x000001) freshWorld).2.trace.filter Event.isSleep =
      freshWorld.trace.filter Event.isSleep) :=
  ⟨rfl, ReadDataRaw_fast_path "timeout" (simChip 0x000001) freshWorld rfl⟩

/-! ## C2: decoding the 24 sampled levels -/

theorem accumulate_eq_sum (b : List State) (a : Nat) :
    accumulate a b = a * 2 ^ b.length +
      ∑ i in Finset.range b.length, levelBit (b.getD i State.Low) * 2 ^ (b.length - 1 - i) := by
  induction b generalizing a with
  | nil => simp [accumulate]
  | cons s b ih =>
    have h1 : accumulate a (s :: b) = accumulate (2 * a + levelBit s) b := rfl
    rw [h1, ih, List.length_cons, Finset.sum_range_succ']
    have h2 : ∀ i, levelBit ((s :: b).getD (i + 1) State.Low) * 2 ^ (b.length + 1 - 1 - (i + 1)) =
        levelBit (b.getD i State.Low) * 2 ^ (b.length - 1 - i) := by
      intro i
      have e : b.length + 1 - 1 - (i + 1) = b.length - 1 - i := by omega
      rw [e]
      simp
    simp only [h2]
    simp only [List.getD_cons_zero, Nat.add_sub_cancel, Nat.sub_zero, pow_succ]
    ring

theorem accumulate_eq_msbFirstValue (b : List State) (hlen : b.length = 24) :
    accumulate 0 b = msbFirstValue b := by
  rw [accumulate_eq_sum, hlen]
  simp [msbFirstValue]

theorem accumulate_bound (b : List State) (a : Nat) :
    accumulate a b + 1 ≤ (a + 1) * 2 ^ b.length := by
  induction b generalizing a with
  | nil => simp [accumulate]
  | cons s b ih =>
    have h1 : accumulate a (s :: b) = accumulate (2 * a + levelBit s) b := rfl
    rw [h1, List.length_cons, pow_succ]
    have hs : levelBit s ≤ 1 := by cases s <;> simp [levelBit]
    calc accumulate (2 * a + levelBit s) b + 1
        ≤ (2 * a + levelBit s + 1) * 2 ^ b.length := ih _
      _ ≤ (2 * a + 1 + 1) * 2 ^ b.length :=
          Nat.mul_le_mul_right _ (by omega)
      _ = (a + 1) * (2 ^ b.length * 2) := by ring

/-- The accumulator of the shift loop never leaves `[0, 2^24)`, so the `int`
arithmetic of lines 115-118 cannot overflow. -/
theorem shiftBits_data_lt (t : String) (env : Env) (n : Nat) (hn : n ≤ 24) (w : World) :
    0 ≤ (shiftBits t env n 0 w).2.1 ∧ (shiftBits t env n 0 w).2.1 < 2 ^ 24 := by
  rcases shiftBits_spec t env n 0 w with ⟨b, hlen, h⟩
  have h0 : ((0 : Nat) : Int) = 0 := rfl
  rw [h0] at h
  have hd : (shiftBits t env n 0 w).2.1 = ((accumulate 0 b : Nat) : Int) := by rw [h]
  rw [hd]
  have hb := accumulate_bound b 0
  rw [hlen] at hb
  have hp : 2 ^ n ≤ 2 ^ 24 := Nat.pow_le_pow_right (by norm_num) hn
  have hlt : accumulate 0 b < 2 ^ 24 := by omega
  constructor
  · exact Int.natCast_nonneg _
  · exact_mod_cast hlt

theorem signExtend_allOnes : signExtend ((16777215 : Nat) : Int) = -1 := by
  rw [signExtend_natCast _ (by norm_num), if_pos (by decide)]
  norm_num

theorem signExtend_one : signExtend ((1 : Nat) : Int) = 1 := by
  rw [signExtend_natCast _ (by norm_num), if_neg (by decide)]
  norm_num

theorem signExtend_topBit : signExtend ((8388608 : Nat) : Int) = -8388608 := by
  rw [signExtend_natCast _ (by norm_num), if_pos (by decide)]
  norm_num

/-- C2: when `ReadDataRaw` succeeds, the 24 levels `b` it samples after the wait
determine the result: it returns, with no error, the sign extension of the
most-significant-first value of `b` (the sum of `b i * 2 ^ (23 - i)`, High = 1,
Low = 0), a value below `2 ^ 24`.  In particular the levels of `0xFFFFFF` give
-1, those of `0x000001` give 1 and those of `0x800000` give -8388608. -/
theorem ReadDataRaw_decodes (t : String) (env : Env) (w : World)
    (hok : (ReadDataRaw t env w).1.2 = none) :
    ∃ b : List State, b.length = 24 ∧
      samples w.hx711.dataPin (ReadDataRaw t env w).2.trace =
        samples w.hx711.dataPin (waitForDataReady env w).2.trace ++ b ∧
      (ReadDataRaw t env w).1 = (signExtend ((msbFirstValue b : Nat) : Int), none) ∧
      msbFirstValue b < 2 ^ 24 ∧
      (b = patternLevels 0xFFFFFF → (ReadDataRaw t env w).1 = (-1, none)) ∧
      (b = patternLevels 0x000001 → (ReadDataRaw t env w).1 = (1, none)) ∧
      (b = patternLevels 0x800000 → (ReadDataRaw t env w).1 = (-8388608, none)) := by
  have hwait := (ReadDataRaw_ok_iff t env w).mp hok
  have hhx := waitForDataReady_hx711 env w
  cases hw : waitForDataReady env w with
  | mk r w1 =>
    rw [hw] at hwait hhx
    simp only at hwait hhx
    subst hwait
    rcases ReadDataRaw_of_ready t env w w1 hw with ⟨b, hlen, h⟩
    have hval := accumulate_eq_msbFirstValue b hlen
    have hres : (ReadDataRaw t env w).1 = (signExtend ((msbFirstValue b : Nat) : Int), none) := by
      rw [h, hval]
    refine ⟨b, hlen, ?_, hres, ?_, ?_, ?_, ?_⟩
    · rw [h]
      simp only [hhx, samples_append, samples_shiftEvents, samples_pulseTrain]
      simp
    · have hb := accumulate_bound b 0
      rw [hlen, hval] at hb
      omega
    · intro hb
      have hv : msbFirstValue b = 16777215 := by rw [← hval, hb]; decide
      rw [hres, hv, signExtend_allOnes]
    · intro hb
      have hv : msbFirstValue b = 1 := by rw [← hval, hb]; decide
      rw [hres, hv, signExtend_one]
    · intro hb
      have hv : msbFirstValue b = 8388608 := by rw [← hval, hb]; decide
      rw [hres, hv, signExtend_topBit]

/-- The simulated chip holding `0x800000`: the read succeeds, samples the
levels of that pattern and returns -8388608. -/
theorem ReadDataRaw_decodes_witness :
    ((ReadDataRaw "timeout" (simChip 0x800000) freshWorld).1.2 = none) ∧
    (∃ b : List State, b.length = 24 ∧
      samples freshWorld.hx711.dataPin (ReadDataRaw "timeout" (simChip 0x800000) freshWorld).2.trace =
        samples freshWorld.hx711.dataPin (waitForDataReady (simChip 0x800000) freshWorld).2.trace ++ b ∧
      (ReadDataRaw "timeout" (simChip 0x800000) freshWorld).1 =
        (signExtend ((msbFirstValue b : Nat) : Int), none) ∧
      msbFirstValue b < 2 ^ 24 ∧
      (b = patternLevels 0xFFFFFF →
        (ReadDataRaw "timeout" (simChip 0x800000) freshWorld).1 = (-1, none)) ∧
      (b = patternLevels 0x000001 →
        (ReadDataRaw "timeout" (simChip 0x800000) freshWorld).1 = (1, none)) ∧
      (b = patternLevels 0x800000 →
        (ReadDataRaw "timeout" (simChip 0x800000) freshWorld).1 = (-8388608, none))) ∧
    (ReadDataRaw "timeout" (simChip 0x800000) freshWorld).1 = (-8388608, none) := by
  have hthm := ReadDataRaw_decodes "timeout" (simChip 0x800000) freshWorld rfl
  refine ⟨rfl, hthm, ?_⟩
  rcases hthm with ⟨b, _, hs, _, _, _, _, h3⟩
  apply h3
  have e1 : samples freshWorld.hx711.dataPin
      (ReadDataRaw "timeout" (simChip 0x800000) freshWorld).2.trace =
      State.Low :: patternLevels 0x800000 := by decide
  have e2 : samples freshWorld.hx711.dataPin
      (waitForDataReady (simChip 0x800000) freshWorld).2.trace = [State.Low] := by decide
  rw [e1, e2] at hs
  simpa using hs.symm

/-! ## C10: NewHx711 -/

theorem parseUintLoop_ok (l : List Char) (n v : Nat) (h : parseUintLoop l n = Except.ok v) :
    l.all Char.isDigit = true ∧ (l ≠ [] → v ≤ 2 ^ 32 - 1) := by
  induction l generalizing n with
  | nil => exact ⟨rfl, fun h => absurd rfl h⟩
  | cons c cs ih =>
    unfold parseUintLoop at h
    split at h
    · rename_i hd
      split at h
      · cases h
      · split at h
        · cases h
        · rename_i hr
          have := ih _ h
          refine ⟨by simp [hd, this.1], fun _ => ?_⟩
          cases cs with
          | nil =>
            simp only [parseUintLoop, Except.ok.injEq] at h
            omega
          | cons c2 cs2 => exact this.2 (by simp)
    · cases h

theorem ParseUint_ok (l : List Char) (v : Nat) (h : ParseUint l = Except.ok v) :
    l ≠ [] ∧ l.all Char.isDigit = true ∧ v ≤ 2 ^ 32 - 1 := by
  cases l with
  | nil => simp [ParseUint] at h
  | cons c cs =>
    have := parseUintLoop_ok (c :: cs) 0 v h
    exact ⟨by simp, this.1, this.2 (by simp)⟩

theorem ParseInt_ok (s : String) (n : Int) (h : ParseInt s = Except.ok n) :
    wellFormedDecimal s = true ∧ -(2 : Int) ^ 31 ≤ n ∧ n < 2 ^ 31 := by
  unfold ParseInt at h
  unfold wellFormedDecimal
  cases hs : s.data with
  | nil => rw [hs] at h; simp at h
  | cons c cs =>
    rw [hs] at h
    simp only at h
    cases hu : ParseUint (if c = '+' ∨ c = '-' then cs else c :: cs) with
    | error k =>
      rw [hu] at h
      cases k with
      | ErrSyntax => simp at h
      | ErrRange =>
        simp only at h
        by_cases hneg : c = '-'
        · simp [hneg] at h
        · simp [hneg] at h
    | ok v =>
      rw [hu] at h
      simp only at h
      have hv := ParseUint_ok _ v hu
      have hwf : (if c = '+' ∨ c = '-' then (!cs.isEmpty && cs.all Char.isDigit)
          else (c :: cs).all Char.isDigit) = true := by
        by_cases hc : c = '+' ∨ c = '-'
        · rw [if_pos hc] at hv
          rw [if_pos hc]
          have hne : cs.isEmpty = false := by
            cases cs with
            | nil => exact absurd rfl hv.1
            | cons _ _ => rfl
          simp only [hne, Bool.not_false, Bool.true_and]
          exact hv.2.1
        · rw [if_neg hc] at hv
          rw [if_neg hc]
          exact hv.2.1
      refine ⟨hwf, ?_⟩
      by_cases hneg : c = '-'
      · simp only [hneg, decide_True, Bool.not_true, Bool.false_eq_true, false_and, if_false,
          true_and] at h
        split at h
        · cases h
        · rename_i hle
          simp only [if_true, Except.ok.injEq] at h
          omega
      · simp only [hneg, decide_False, Bool.not_false, true_and, false_and, if_false] at h
        split at h
        · cases h
        · rename_i hle
          simp only [Bool.false_eq_true, false_and, if_false, Except.ok.injEq] at h
          omega

theorem appendDigits_cons (n : Nat) (c : Char) (cs : List Char) :
    appendDigits n (c :: cs) = appendDigits (n * 10 + (c.toNat - 48)) cs := rfl

theorem appendDigits_ge (l : List Char) (n : Nat) : n ≤ appendDigits n l := by
  induction l generalizing n with
  | nil => exact Nat.le_refl n
  | cons c cs ih =>
    rw [appendDigits_cons]
    have := ih (n * 10 + (c.toNat - 48))
    omega

/-- On digits only, the loop of `ParseUint` returns the number the digits write,
or a range error when that number exceeds `2^32 - 1`. -/
theorem parseUintLoop_digits (l : List Char) (n : Nat) (hd : l.all Char.isDigit = true)
    (hn : n ≤ 2 ^ 32 - 1) :
    parseUintLoop l n =
      if appendDigits n l ≤ 2 ^ 32 - 1 then Except.ok (appendDigits n l)
      else Except.error NumErrorKind.ErrRange := by
  induction l generalizing n with
  | nil =>
    have h1 : appendDigits n [] = n := rfl
    rw [h1, if_pos hn]
    rfl
  | cons c cs ih =>
    simp only [List.all_cons, Bool.and_eq_true] at hd
    rw [appendDigits_cons]
    unfold parseUintLoop
    rw [if_pos hd.1]
    have hcut : ¬ n ≥ (2 ^ 64 - 1) / 10 + 1 := by
      have : (2 ^ 64 - 1) / 10 + 1 = 1844674407370955162 := by norm_num
      omega
    rw [if_neg hcut]
    by_cases hbig : n * 10 + (c.toNat - 48) > 2 ^ 32 - 1
    · rw [if_pos (Or.inr hbig)]
      have := appendDigits_ge cs (n * 10 + (c.toNat - 48))
      rw [if_neg (by omega)]
    · have hno : ¬ (n * 10 + (c.toNat - 48) ≥ 2 ^ 64 ∨ n * 10 + (c.toNat - 48) > 2 ^ 32 - 1) := by
        intro h
        rcases h with h | h
        · omega
        · exact hbig h
      rw [if_neg hno]
      exact ih _ hd.2 (by omega)

theorem ParseUint_digits (l : List Char) (hne : l ≠ []) (hd : l.all Char.isDigit = true) :
    ParseUint l =
      if appendDigits 0 l ≤ 2 ^ 32 - 1 then Except.ok (appendDigits 0 l)
      else Except.error NumErrorKind.ErrRange := by
  cases l with
  | nil => exact absurd rfl hne
  | cons c cs => exact parseUintLoop_digits (c :: cs) 0 hd (by norm_num)

/-- On a well-formed decimal number `ParseInt` returns its value when that fits
32 signed bits, and a range error otherwise. -/
theorem ParseInt_of_wellFormed (s : String) (hwf : wellFormedDecimal s = true) :
    ParseInt s =
      if -(2 : Int) ^ 31 ≤ decimalValue s ∧ decimalValue s < 2 ^ 31 then
        Except.ok (decimalValue s)
      else Except.error ⟨"ParseInt", s, NumErrorKind.ErrRange⟩ := by
  unfold ParseInt decimalValue
  unfold wellFormedDecimal at hwf
  cases hs : s.data with
  | nil => rw [hs] at hwf; simp at hwf
  | cons c cs =>
    rw [hs] at hwf
    simp only at hwf ⊢
    by_cases hm : c = '-'
    · subst hm
      have hc : ('-' : Char) = '+' ∨ ('-' : Char) = '-' := Or.inr rfl
      rw [if_pos hc] at hwf
      rw [if_pos hc]
      simp only [Bool.and_eq_true, Bool.not_eq_true', List.isEmpty_eq_false] at hwf
      rw [ParseUint_digits cs hwf.1 hwf.2]
      by_cases hv : appendDigits 0 cs ≤ 2 ^ 32 - 1
      · rw [if_pos hv]
        simp only [decide_True, Bool.not_true, Bool.false_eq_true, false_and, if_false, true_and,
          if_true]
        by_cases h31 : appendDigits 0 cs > 2 ^ 31
        · rw [if_pos h31, if_neg (by omega)]
        · rw [if_neg h31, if_pos (by omega)]
      · rw [if_neg hv]
        simp only [decide_True, Bool.not_true, Bool.false_eq_true, false_and, if_false, true_and,
          if_true]
        rw [if_pos (by norm_num), if_neg (by omega)]
    · by_cases hp : c = '+'
      · subst hp
        have hc : ('+' : Char) = '+' ∨ ('+' : Char) = '-' := Or.inl rfl
        rw [if_pos hc] at hwf
        rw [if_pos hc, if_neg hm]
        simp only [Bool.and_eq_true, Bool.not_eq_true', List.isEmpty_eq_false] at hwf
        rw [ParseUint_digits cs hwf.1 hwf.2]
        by_cases hv : appendDigits 0 cs ≤ 2 ^ 32 - 1
        · rw [if_pos hv]
          simp only [hm, decide_False, Bool.not_false, true_and, Bool.false_eq_true, false_and,
            if_false, if_true]
          by_cases h31 : appendDigits 0 cs ≥ 2 ^ 31
          · rw [if_pos h31, if_neg (by omega)]
          · rw [if_neg h31, if_pos (by omega)]
        · rw [if_neg hv]
          simp only [hm, decide_False, Bool.not_false, true_and, Bool.false_eq_true, false_and,
            if_false, if_true]
          rw [if_pos (by norm_num), if_neg (by omega)]
      · have hc : ¬ (c = '+' ∨ c = '-') := fun h => h.elim hp hm
        rw [if_neg hc] at hwf
        rw [if_neg hc, if_neg hm, if_neg hp]
        rw [ParseUint_digits (c :: cs) (by simp) hwf]
        by_cases hv : appendDigits 0 (c :: cs) ≤ 2 ^ 32 - 1
        · rw [if_pos hv]
          simp only [hm, decide_False, Bool.not_false, true_and, Bool.false_eq_true, false_and,
            if_false, if_true]
          by_cases h31 : appendDigits 0 (c :: cs) ≥ 2 ^ 31
          · rw [if_pos h31, if_neg (by omega)]
          · rw [if_neg h31, if_pos (by omega)]
        · rw [if_neg hv]
          simp only [hm, decide_False, Bool.not_false, true_and, Bool.false_eq_true, false_and,
            if_false, if_true]
          rw [if_pos (by norm_num), if_neg (by omega)]

/-- `ParseInt` accepts exactly the well-formed decimal numbers whose value fits
32 signed bits, and returns that value. -/
theorem ParseInt_iff (s : String) (n : Int) :
    ParseInt s = Except.ok n ↔ acceptedNumber s ∧ decimalValue s = n := by
  constructor
  · intro h
    have hwf := (ParseInt_ok s n h).1
    have hev := ParseInt_of_wellFormed s hwf
    rw [h] at hev
    by_cases hr : -(2 : Int) ^ 31 ≤ decimalValue s ∧ decimalValue s < 2 ^ 31
    · rw [if_pos hr] at hev
      cases hev
      exact ⟨⟨hwf, hr⟩, rfl⟩
    · rw [if_neg hr] at hev
      cases hev
  · rintro ⟨⟨hwf, hr⟩, rfl⟩
    rw [ParseInt_of_wellFormed s hwf, if_pos hr]

/-- A string that is not an accepted number is rejected by `ParseInt`. -/
theorem ParseInt_reject (s : String) (h : ¬ acceptedNumber s) :
    ∃ err, ParseInt s = Except.error err := by
  cases hp : ParseInt s with
  | error err => exact ⟨err, rfl⟩
  | ok n => exact absurd ((ParseInt_iff s n).mp hp).1 h

/-! ### Removing the first occurrence of the label -/

theorem replaceFirst_absent (old new s : List Char) (h : ¬ old <:+: s) :
    replaceFirst old new s = s := by
  induction s with
  | nil => rfl
  | cons c cs ih =>
    unfold replaceFirst
    have hnp : ¬ old.isPrefixOf (c :: cs) = true := by
      intro hp
      exact h (List.isPrefixOf_iff_prefix.mp hp).isInfix
    rw [if_neg hnp, ih (fun hi => h (List.infix_cons hi))]

theorem replaceFirst_first (old new pre post : List Char) (hne : old ≠ [])
    (hfirst : ¬ old <:+: pre ++ old.dropLast) :
    replaceFirst old new (pre ++ old ++ post) = pre ++ new ++ post := by
  induction pre with
  | nil =>
    cases old with
    | nil => exact absurd rfl hne
    | cons o os =>
      have hp : (o :: os).isPrefixOf (o :: (os ++ post)) = true :=
        List.isPrefixOf_iff_prefix.mpr ⟨post, rfl⟩
      have hd : List.drop (o :: os).length (o :: (os ++ post)) = post :=
        List.drop_left (o :: os) post
      show replaceFirst (o :: os) new (o :: (os ++ post)) = [] ++ new ++ post
      unfold replaceFirst
      rw [if_pos hp, hd]
      rfl
  | cons c pre ih =>
    have hnp : ¬ old.isPrefixOf (c :: (pre ++ old ++ post)) = true := by
      intro hp
      have h1 : old <+: c :: (pre ++ old ++ post) := List.isPrefixOf_iff_prefix.mp hp
      have h2 : (c :: pre) ++ old.dropLast <+: c :: (pre ++ old ++ post) := by
        have : (c :: pre) ++ old.dropLast <+: (c :: pre) ++ old :=
          (List.prefix_append_right_inj _).mpr (List.dropLast_prefix old)
        exact this.trans ⟨post, by simp⟩
      have hlen : old.length ≤ ((c :: pre) ++ old.dropLast).length := by
        have hpos : 0 < old.length := List.length_pos.mpr hne
        simp only [List.length_append, List.length_cons, List.length_dropLast]
        omega
      exact hfirst (List.prefix_of_prefix_length_le h1 h2 hlen).isInfix
    show replaceFirst old new (c :: (pre ++ old ++ post)) = c :: (pre ++ new ++ post)
    unfold replaceFirst
    rw [if_neg hnp, ih (fun hi => hfirst (List.infix_cons hi))]

/-! ### The claim as stated, and what holds -/

/-- C10 as stated fails on three identifiers.  "1GPIO7" does not start with the
label and is not a well-formed decimal number, yet `NewHx711` removes the inner
"GPIO", parses 17 and returns a driver.  "256" is a well-formed decimal number
of value 256, yet the driver's clock pin is 0, not the parsed number.  "-1" has
value -1, yet a driver is returned, with data pin 255. -/
theorem NewHx711_not_as_stated :
    (withoutLeadingLabel "1GPIO7" = "1GPIO7" ∧
      wellFormedDecimal (withoutLeadingLabel "1GPIO7") = false ∧
      NewHx711 "1GPIO7" "5" [] =
        ((some ⟨17, 5, 1, 0, 0⟩, none), [Event.input 5, Event.output 17])) ∧
    (withoutLeadingLabel "256" = "256" ∧
      wellFormedDecimal (withoutLeadingLabel "256") = true ∧
      decimalValue (withoutLeadingLabel "256") = 256 ∧
      NewHx711 "256" "5" [] =
        ((some ⟨0, 5, 1, 0, 0⟩, none), [Event.input 5, Event.output 0])) ∧
    (withoutLeadingLabel "-1" = "-1" ∧
      decimalValue (withoutLeadingLabel "-1") = -1 ∧
      NewHx711 "5" "-1" [] =
        ((some ⟨5, 255, 1, 0, 0⟩, none), [Event.input 255, Event.output 5])) := by
  refine ⟨⟨by decide, by decide, by decide⟩, ⟨by decide, by decide, by decide, by decide⟩,
    ⟨by decide, by decide, by decide⟩⟩

/-- C10, amended.  Removing the label means removing the first occurrence of
"GPIO", wherever it is (and nothing when there is none).  `NewHx711` fails with
a parse error, returns no driver and leaves the trace unchanged whenever either
identifier, after that removal, is not a well-formed decimal number with a
value in `[-2^31, 2^31)`.  Otherwise it returns the driver whose clock and data
pins are the parsed numbers modulo 256 (so the parsed numbers themselves when
they lie in `[0, 256)`), with end-pulse count 1 and zero calibration fields,
after configuring the data pin as input and then the clock pin as output. -/
theorem NewHx711_spec (c d : String) (tr : Trace) :
    (∀ (s : String) (pre post : List Char), s.data = pre ++ "GPIO".data ++ post →
      ¬ "GPIO".data <:+: pre ++ ['G', 'P', 'I'] →
      (Replace1 s "GPIO" "").data = pre ++ post) ∧
    (∀ s : String, ¬ "GPIO".data <:+: s.data → Replace1 s "GPIO" "" = s) ∧
    (¬ (acceptedNumber (Replace1 c "GPIO" "") ∧ acceptedNumber (Replace1 d "GPIO" "")) →
      ∃ err, NewHx711 c d tr = ((none, some err), tr) ∧
        (ParseInt (Replace1 c "GPIO" "") = Except.error err ∨
          ParseInt (Replace1 d "GPIO" "") = Except.error err)) ∧
    (acceptedNumber (Replace1 c "GPIO" "") → acceptedNumber (Replace1 d "GPIO" "") →
      NewHx711 c d tr =
        ((some ⟨decimalValue (Replace1 c "GPIO" "") % 256,
            decimalValue (Replace1 d "GPIO" "") % 256, 1, 0, 0⟩, none),
          tr ++ [Event.input (decimalValue (Replace1 d "GPIO" "") % 256),
            Event.output (decimalValue (Replace1 c "GPIO" "") % 256)])) ∧
    (∀ hx : Hx711, (NewHx711 c d tr).1.1 = some hx →
      (0 ≤ decimalValue (Replace1 c "GPIO" "") → decimalValue (Replace1 c "GPIO" "") < 256 →
        hx.clockPin = decimalValue (Replace1 c "GPIO" "")) ∧
      (0 ≤ decimalValue (Replace1 d "GPIO" "") → decimalValue (Replace1 d "GPIO" "") < 256 →
        hx.dataPin = decimalValue (Replace1 d "GPIO" "")) ∧
      hx.numEndPulses = 1) := by
  have hok : ∀ cn dn, ParseInt (Replace1 c "GPIO" "") = Except.ok cn →
      ParseInt (Replace1 d "GPIO" "") = Except.ok dn →
      NewHx711 c d tr = ((some ⟨cn % 256, dn % 256, 1, 0, 0⟩, none),
        tr ++ [Event.input (dn % 256), Event.output (cn % 256)]) := by
    intro cn dn h1 h2
    simp [NewHx711, h1, h2, toPin]
  refine ⟨?_, ?_, ?_, ?_, ?_⟩
  · intro s pre post hs hfirst
    show replaceFirst "GPIO".data "".data s.data = pre ++ post
    rw [hs]
    have h := replaceFirst_first "GPIO".data "".data pre post (by decide) hfirst
    rw [h]
    simp
  · intro s habs
    show (⟨replaceFirst "GPIO".data "".data s.data⟩ : String) = s
    rw [replaceFirst_absent _ _ _ habs]
  · intro hnot
    cases hc : ParseInt (Replace1 c "GPIO" "") with
    | error err =>
      exact ⟨err, by simp [NewHx711, hc], Or.inl rfl⟩
    | ok cn =>
      cases hd : ParseInt (Replace1 d "GPIO" "") with
      | error err =>
        exact ⟨err, by simp [NewHx711, hc, hd], Or.inr rfl⟩
      | ok dn =>
        exact absurd ⟨((ParseInt_iff _ cn).mp hc).1, ((ParseInt_iff _ dn).mp hd).1⟩ hnot
  · intro hca hda
    exact hok _ _ ((ParseInt_iff _ _).mpr ⟨hca, rfl⟩) ((ParseInt_iff _ _).mpr ⟨hda, rfl⟩)
  · intro hx hsome
    cases hc : ParseInt (Replace1 c "GPIO" "") with
    | error err =>
      have : NewHx711 c d tr = ((none, some err), tr) := by simp [NewHx711, hc]
      rw [this] at hsome
      cases hsome
    | ok cn =>
      cases hd : ParseInt (Replace1 d "GPIO" "") with
      | error err =>
        have : NewHx711 c d tr = ((none, some err), tr) := by simp [NewHx711, hc, hd]
        rw [this] at hsome
        cases hsome
      | ok dn =>
        rw [hok cn dn hc hd] at hsome
        simp only [Option.some.injEq] at hsome
        subst hsome
        have e1 := ((ParseInt_iff _ cn).mp hc).2
        have e2 := ((ParseInt_iff _ dn).mp hd).2
        rw [e1, e2]
        refine ⟨fun h0 h1 => ?_, fun h0 h1 => ?_, rfl⟩
        · show cn % 256 = cn
          omega
        · show dn % 256 = dn
          omega

/-- The identifiers "GPIO5" and "GPIO6" give the driver on pins 5 and 6, while
"GPIOGPIO6", of which only the first label is removed, is rejected. -/
theorem NewHx711_spec_witness :
    (acceptedNumber (Replace1 "GPIO5" "GPIO" "")) ∧
    (acceptedNumber (Replace1 "GPIO6" "GPIO" "")) ∧
    (NewHx711 "GPIO5" "GPIO6" [] =
      ((some ⟨decimalValue (Replace1 "GPIO5" "GPIO" "") % 256,
          decimalValue (Replace1 "GPIO6" "GPIO" "") % 256, 1, 0, 0⟩, none),
        [] ++ [Event.input (decimalValue (Replace1 "GPIO6" "GPIO" "") % 256),
          Event.output (decimalValue (Replace1 "GPIO5" "GPIO" "") % 256)])) ∧
    (NewHx711 "GPIO5" "GPIO6" [] =
      ((some ⟨5, 6, 1, 0, 0⟩, none), [Event.input 6, Event.output 5])) ∧
    (¬ (acceptedNumber (Replace1 "5" "GPIO" "") ∧
      acceptedNumber (Replace1 "GPIOGPIO6" "GPIO" ""))) ∧
    (∃ err, NewHx711 "5" "GPIOGPIO6" [] = ((none, some err), []) ∧
      (ParseInt (Replace1 "5" "GPIO" "") = Except.error err ∨
        ParseInt (Replace1 "GPIOGPIO6" "GPIO" "") = Except.error err)) :=
  ⟨⟨by decide, by decide, by decide⟩, ⟨by decide, by decide, by decide⟩,
    (NewHx711_spec "GPIO5" "GPIO6" []).2.2.2.1
      ⟨by decide, by decide, by decide⟩ ⟨by decide, by decide, by decide⟩,
    by decide,
    fun h => absurd h.2.1 (by decide),
    (NewHx711_spec "5" "GPIOGPIO6" []).2.2.1 (fun h => absurd h.2.1 (by decide))⟩

end hx711
